import Mathlib

/-!
Verification of the shader compile/execute layer in
`src/backends/webgl/gpgpu_math.ts`.

The TypeScript source is shallowly embedded as follows.

* JS numbers that are known non-negative integers (shapes, texture shapes,
  uniform locations, handles) become `Nat`; tensor payload values are carried
  opaquely as `Int` (no floating-point arithmetic is performed on them by the
  code under verification, they are only passed through to the GL context).
* Nullable values become `Option`.
* GL side effects are recorded as a trace (`List GLCmd`) of the calls issued
  to the `GPGPUContext` collaborator, in program order.
* A thrown `Error` becomes `Except.error`: `runProgram` returns either the
  error or the full trace of issued GL commands.  Since both validation calls
  in `runProgram` precede every GL call, an error result means no GL command
  (in particular no `executeProgram` dispatch) was issued.
* The ambient `ENV.getNumber('WEBGL_VERSION')` is passed as an explicit
  `webglVersion` argument; context queries (`getUniformLocation`,
  `createProgram`) and the external `shader_compiler.makeShader` generator
  are passed as explicit function arguments.
* Out-of-bounds JS array indexing yields `undefined`; arithmetic on it yields
  `NaN`.  Where such a value can flow into a `gl.uniform1i` upload we model
  the JS number as `Option Nat` (`none` = the `NaN` produced from an
  out-of-bounds read).  Values uploaded through `gl.uniform1iv` pass through
  an `Int32Array` conversion, which maps `NaN` to `0`; those payloads are
  therefore modelled as `Nat` with `0` at the (unreachable in practice)
  out-of-bounds spots.
-/

/-- Models `Math.ceil(n * 0.5)` for a non-negative integer `n`. -/
def ceilHalf (n : Nat) : Nat := (n + 1) / 2

/-- JS array indexing `l[i]` with a possibly negative index: `undefined`
(`none`) when out of bounds. -/
def jsIdx (l : List Nat) (i : Int) : Option Nat :=
  if i < 0 then none else l.get? i.toNat

/-- Decimal digit characters, as produced by JS number-to-string coercion. -/
def digitChar : Nat → Char
  | 0 => '0' | 1 => '1' | 2 => '2' | 3 => '3' | 4 => '4'
  | 5 => '5' | 6 => '6' | 7 => '7' | 8 => '8' | _ => '9'

/-- Decimal representation (most significant digit first) of a natural
number, as produced by JS `String(n)` for a non-negative integer. -/
def natChars (n : Nat) : List Char :=
  if _h : n < 10 then [digitChar n]
  else natChars (n / 10) ++ [digitChar (n % 10)]
termination_by n
decreasing_by exact Nat.div_lt_self (by omega) (by omega)

/-- Numeric value of a digit character. -/
def charVal (c : Char) : Nat := c.toNat - 48

/-- Value of a most-significant-first digit string. -/
def chainVal (l : List Char) : Nat :=
  l.foldl (fun a c => 10 * a + charVal c) 0

/-- Models JS `Array.prototype.toString` (used by template-string
interpolation of a `number[]`): decimal entries joined by commas. -/
def commaJoinChars : List Nat → List Char
  | [] => []
  | [n] => natChars n
  | n :: m :: rest => natChars n ++ ',' :: commaJoinChars (m :: rest)

/-- Models JS `String(b)` for a boolean. -/
def boolChars (b : Bool) : List Char :=
  if b then ['t', 'r', 'u', 'e'] else ['f', 'a', 'l', 's', 'e']

/-- The characters of the `'uniform'` sentinel used by `makeShaderKey`. -/
def uniformChars : List Char := ['u', 'n', 'i', 'f', 'o', 'r', 'm']

/-- String form of a JS `number[]` under template interpolation. -/
def listNatStr (l : List Nat) : String := String.mk (commaJoinChars l)

/-- String form of a JS boolean under template interpolation. -/
def boolStr (b : Bool) : String := String.mk (boolChars b)

/-- `TextureData.slice`: a strided view into a larger allocation. -/
structure Slice where
  flatOffset : Nat
deriving Repr, DecidableEq

/-- The parts of `tex_util.TextureData` read by `gpgpu_math.ts`: the physical
texture shape, the packed-layout flag, the optional slice descriptor and the
backing texture handle. -/
structure TextureData where
  texShape : List Nat
  isPacked : Bool
  slice : Option Slice
  texture : Nat
deriving Repr, DecidableEq

/-- Default used to totalize reads of `texData` fields; the source would
throw a `TypeError` on a `null` `texData` at those spots, and every operand
exercised by the claims carries its `texData`. -/
def defaultTextureData : TextureData :=
  { texShape := [], isPacked := false, slice := none, texture := 0 }

/-- `TensorData` from `gpgpu_math.ts`.  `texData` is `Option` because the
source guards `x.texData != null`; `uniformValues` carries the flat payload
of a uniform-backed operand. -/
structure TensorData where
  shape : List Nat
  texData : Option TextureData
  isUniform : Bool
  uniformValues : List Int
deriving Repr, DecidableEq

/-- `shader_compiler.ShapeInfo` as recorded in a `GPGPUBinary`. -/
structure ShapeInfo where
  logicalShape : List Nat
  texShape : Option (List Nat)
  isUniform : Bool
  isPacked : Bool
  flatOffset : Option Nat
deriving Repr, DecidableEq

def defaultShapeInfo : ShapeInfo :=
  { logicalShape := [], texShape := none, isUniform := false,
    isPacked := false, flatOffset := none }

def defaultTensorData : TensorData :=
  { shape := [], texData := none, isUniform := false, uniformValues := [] }

/-- `shader_compiler.InputInfo`. -/
structure InputInfo where
  name : String
  shapeInfo : ShapeInfo
deriving Repr, DecidableEq

/-- `GPGPUProgram`.  `constructorName` models the JS `program.constructor.name`
read by `makeShaderKey`. -/
structure GPGPUProgram where
  variableNames : List String
  outputShape : List Nat
  userCode : String
  usesPackedTextures : Bool
  isPackShader : Bool
  constructorName : String
deriving Repr, DecidableEq

/-- Value uploaded through `gl.uniform1f`: either a tensor payload value or
one of the two special constants. -/
inductive FVal where
  | num (v : Int)
  | nan
  | infinity
deriving Repr, DecidableEq

/-- One call issued to the GL context, in the order the executor issues them.
`uniform1i` carries `Option Nat`: `none` is the `NaN` produced when the
executor's index arithmetic read past the end of a shape array. -/
inductive GLCmd where
  | setOutputPackedMatrixTexture (texture h w : Nat)
  | setOutputMatrixTexture (texture h w : Nat)
  | setProgram (program : Nat)
  | uniform1f (loc : Nat) (v : FVal)
  | uniform1fv (loc : Nat) (vs : List Int)
  | uniform1iv (loc : Nat) (vs : List Nat)
  | uniform1i (loc : Nat) (v : Option Nat)
  | setInputMatrixTexture (texture loc unit : Nat)
  | executeProgram
deriving Repr, DecidableEq

/-- The `Error`s thrown by `validateBinaryAndProgram` — the spec's
`ShapeMismatch` taxonomy (wrong operand count, logical-shape mismatch,
texture-shape mismatch).  The interpolated message text is carried as the
mismatching data. -/
inductive ShapeMismatch where
  | countMismatch (recorded actual : Nat)
  | logicalShapeMismatch (recorded actual : List Nat)
  | texShapeMismatch (recorded actual : Option (List Nat))
deriving Repr, DecidableEq

instance exceptDecEq {ε α : Type} [DecidableEq ε] [DecidableEq α] :
    DecidableEq (Except ε α) := fun a b =>
  match a, b with
  | .ok x, .ok y =>
    if h : x = y then .isTrue (by rw [h]) else .isFalse (by intro hc; cases hc; exact h rfl)
  | .error x, .error y =>
    if h : x = y then .isTrue (by rw [h]) else .isFalse (by intro hc; cases hc; exact h rfl)
  | .ok _, .error _ => .isFalse (by intro hc; cases hc)
  | .error _, .ok _ => .isFalse (by intro hc; cases hc)

/-- `GPGPUBinary`.  `uniformLocations` is the JS name-to-location object: a
lookup returns `none` both for an absent key and for a key stored as `null`. -/
structure GPGPUBinary where
  webGLProgram : Nat
  program : GPGPUProgram
  uniformLocations : String → Option Nat
  source : String
  inShapeInfos : List ShapeInfo
  outShapeInfo : ShapeInfo
  infLoc : Option Nat
  nanLoc : Option Nat

/-- Modelled from the spec: `util.arraysEqual` (util.ts is not under src/) —
element-wise equality of two flat numeric vectors. -/
def arraysEqual (a b : List Nat) : Bool := a == b

/-- Modelled from the spec: `util.arraysEqual` applied to possibly-`null`
arguments, as `validateBinaryAndProgram` does for texture shapes — `null`
compares equal only to `null` (`n1 === n2`), and unequal to any array. -/
def arraysEqualOpt (a b : Option (List Nat)) : Bool := a == b

/-- Modelled from the spec: `util.sizeFromShape` — the logical element count,
i.e. the product of the logical shape. -/
def sizeFromShape (shape : List Nat) : Nat := shape.foldl (· * ·) 1

/-- Modelled from the spec: the `newShape` of `util.squeezeShape` — the
logical shape with all size-1 axes squeezed out. -/
def squeezeShape (shape : List Nat) : List Nat := shape.filter (fun d => d ≠ 1)

/-- Modelled from the spec: `util.computeStrides` — row-major strides of the
shader-visible shape (stride of axis `i` is the product of the sizes of the
axes after it; the trailing stride 1 is not stored). -/
def computeStrides : List Nat → List Nat
  | [] => []
  | [_] => []
  | _ :: d :: rest => ((d :: rest).foldl (· * ·) 1) :: computeStrides (d :: rest)

/-- Modelled from the spec: `util.packedShapeTransform` — the logical shape
transformed to its packed form by halving the last two axes with ceiling
rounding (a lone axis is halved the same way). -/
def packedShapeTransform (shape : List Nat) : List Nat :=
  match shape.reverse with
  | [] => []
  | [a] => [ceilHalf a]
  | a :: b :: rest => (ceilHalf a :: ceilHalf b :: rest).reverse

/-- The current operand's texture shape as `validateBinaryAndProgram` reads
it: `input.isUniform ? null : input.texData.texShape`. -/
def currentTexShape (x : TensorData) : Option (List Nat) :=
  if x.isUniform then none else x.texData.map TextureData.texShape

/-- `validateBinaryAndProgram`'s per-operand body (one iteration of the
`forEach`): logical-shape check, uniform short-circuit, texture-shape
check. -/
def validateOne (s : ShapeInfo) (input : TensorData) : Except ShapeMismatch Unit :=
  if arraysEqual s.logicalShape input.shape = false then
    .error (.logicalShapeMismatch s.logicalShape input.shape)
  else if s.isUniform && input.isUniform then
    .ok ()
  else if arraysEqualOpt s.texShape (currentTexShape input) = false then
    .error (.texShapeMismatch s.texShape (currentTexShape input))
  else
    .ok ()

/-- The `forEach` of `validateBinaryAndProgram`: operands are checked in
order and the first mismatch aborts. -/
def validateList : List ShapeInfo → List TensorData → Except ShapeMismatch Unit
  | [], _ => .ok ()
  | _, [] => .ok ()
  | s :: ss, x :: xs =>
    match validateOne s x with
    | .error e => .error e
    | .ok _ => validateList ss xs

/-- `validateBinaryAndProgram`: count check, then per-operand checks. -/
def validateBinaryAndProgram (shapeInfos : List ShapeInfo)
    (inputs : List TensorData) : Except ShapeMismatch Unit :=
  if shapeInfos.length ≠ inputs.length then
    .error (.countMismatch shapeInfos.length inputs.length)
  else
    validateList shapeInfos inputs

/-- `x.texData != null && x.texData.slice != null && x.texData.slice.flatOffset > 0`. -/
def hasOffset (x : TensorData) : Bool :=
  match x.texData with
  | some td =>
    match td.slice with
    | some s => decide (0 < s.flatOffset)
    | none => false
  | none => false

/-- One operand's contribution to `makeShaderKey`:
`` `${x.shape}_${texShape}_${hasOffset}` ``. -/
def tensorKeyPart (x : TensorData) : String :=
  let texShapeStr : String :=
    if x.isUniform then "uniform"
    else listNatStr ((x.texData.getD defaultTextureData).texShape)
  listNatStr x.shape ++ "_" ++ texShapeStr ++ "_" ++ boolStr (hasOffset x)

/-- `makeShaderKey`: operand blocks for `inputs.concat(output)` accumulated
by `+=`, sandwiched between the constructor name and the user code. -/
def makeShaderKey (program : GPGPUProgram) (inputs : List TensorData)
    (output : TensorData) : String :=
  let keyInputs := (inputs ++ [output]).foldl (fun acc x => acc ++ tensorKeyPart x) ""
  let keyUserCode := program.userCode
  program.constructorName ++ "_" ++ keyInputs ++ "_" ++ keyUserCode

/-- The layout fields of one operand that `makeShaderKey` encodes: logical
shape; `none` for `uniform` storage or the physical texture shape otherwise;
presence of a nonzero slice offset. -/
def keyFields (x : TensorData) : List Nat × Option (List Nat) × Bool :=
  (x.shape,
   if x.isUniform then none else some ((x.texData.getD defaultTextureData).texShape),
   hasOffset x)

/-- Character-level view of the middle field of one key block. -/
def texKeyChars (x : TensorData) : List Char :=
  if x.isUniform then uniformChars
  else commaJoinChars ((x.texData.getD defaultTextureData).texShape)

/-- Character-level view of one operand's key block. -/
def blockChars (x : TensorData) : List Char :=
  commaJoinChars x.shape ++ '_' :: (texKeyChars x ++ '_' :: boolChars (hasOffset x))

/-- Character-level view of `keyInputs`. -/
def blocksJoin (xs : List TensorData) : List Char :=
  (xs.map blockChars).flatten

/-- Functional update of the JS uniform-location object. -/
def setLoc (m : String → Option Nat) (k : String) (v : Option Nat) :
    String → Option Nat :=
  fun s => if s = k then v else m s

/-- `recordUniformLocations`: look each name up and record it only when the
query resolved (`varLocation != null`). -/
def recordUniformLocations (getLoc : String → Option Nat)
    (uniformLocations : String → Option Nat) (varNames : List String) :
    String → Option Nat :=
  varNames.foldl (fun m varName =>
    match getLoc varName with
    | some l => setLoc m varName (some l)
    | none => m) uniformLocations

/-- The per-input layout uniform names recorded by `compileProgram`. -/
def inputLayoutUniformNames (name : String) : List String :=
  ["shape" ++ name, "texShape" ++ name, "strides" ++ name,
   "packedTexShape" ++ name, "valuesPerRow" ++ name, "texelsInBatch" ++ name]

/-- The output layout uniform names recorded by `compileProgram`. -/
def outputLayoutUniformNames : List String :=
  ["outputShape", "outputStrides", "outputTexShape", "outputPackedTexShape",
   "outputTexelsInLogicalRow", "outputTexelsInBatch"]

/-- Result of `assembleProgramSource`. -/
structure AssembledSource where
  key : String
  source : String
  inputInfos : List InputInfo
  outShapeInfo : ShapeInfo

/-- `assembleProgramSource`: build a `ShapeInfo` for every input (uniform
operands get `null` texture shape and `false` packing; a nonzero slice
offset is recorded), build the output `ShapeInfo`, and delegate to the
external `shader_compiler.makeShader` (passed in as a function returning
`(source, key)`). -/
def assembleProgramSource
    (makeShader : List InputInfo → ShapeInfo → String → Bool → String × String)
    (program : GPGPUProgram) (inputs : List TensorData) (output : TensorData) :
    AssembledSource :=
  let userCode := program.userCode
  let inputInfos : List InputInfo := inputs.enum.map (fun p =>
    let input := p.2
    let shapeInfo : ShapeInfo :=
      { logicalShape := input.shape
        texShape := if input.isUniform then none
                    else some ((input.texData.getD defaultTextureData).texShape)
        isUniform := input.isUniform
        isPacked := if input.isUniform then false
                    else (input.texData.getD defaultTextureData).isPacked
        flatOffset :=
          match input.texData with
          | some td =>
            match td.slice with
            | some s => if 0 < s.flatOffset then some s.flatOffset else none
            | none => none
          | none => none }
    { name := program.variableNames.getD p.1 "", shapeInfo := shapeInfo })
  let outShapeInfo : ShapeInfo :=
    { logicalShape := output.shape
      texShape := some ((output.texData.getD defaultTextureData).texShape)
      isUniform := false
      isPacked := (output.texData.getD defaultTextureData).isPacked
      flatOffset := none }
  let sk := makeShader inputInfos outShapeInfo userCode program.usesPackedTextures
  { key := sk.2, source := sk.1, inputInfos := inputInfos, outShapeInfo := outShapeInfo }

/-- `compileProgram`: assemble the source, create the GPU program, resolve
the special constant locations (`NAN` always, `INFINITY` only under
WEBGL_VERSION 1), record primary and `offset<name>` locations for every
declared variable (a `null` result is stored as such), then record the
per-input and output layout uniform families for non-scalar shapes.
`getLoc` models `gpgpu.getUniformLocation(webGLProgram, ·, false)` and
`createProgramHandle` the handle returned by `gpgpu.createProgram`. -/
def compileProgram (webglVersion : Nat) (createProgramHandle : Nat)
    (getLoc : String → Option Nat)
    (makeShader : List InputInfo → ShapeInfo → String → Bool → String × String)
    (program : GPGPUProgram) (inputs : List TensorData) (output : TensorData) :
    GPGPUBinary :=
  let asm := assembleProgramSource makeShader program inputs output
  let webGLProgram := createProgramHandle
  let nanLoc := getLoc "NAN"
  let infLoc : Option Nat := if webglVersion = 1 then getLoc "INFINITY" else none
  let uniformLocations₀ : String → Option Nat := fun _ => none
  let uniformLocations₁ := program.variableNames.foldl (fun m varName =>
    setLoc (setLoc m varName (getLoc varName))
      ("offset" ++ varName) (getLoc ("offset" ++ varName))) uniformLocations₀
  let uniformLocations₂ := asm.inputInfos.foldl (fun m inputInfo =>
    if inputInfo.shapeInfo.logicalShape.length > 0 then
      recordUniformLocations getLoc m (inputLayoutUniformNames inputInfo.name)
    else m) uniformLocations₁
  let uniformLocations₃ :=
    if asm.outShapeInfo.logicalShape.length > 0 then
      recordUniformLocations getLoc uniformLocations₂ outputLayoutUniformNames
    else uniformLocations₂
  { webGLProgram := webGLProgram
    program := program
    uniformLocations := uniformLocations₃
    source := asm.source
    inShapeInfos := asm.inputInfos.map InputInfo.shapeInfo
    outShapeInfo := asm.outShapeInfo
    infLoc := infLoc
    nanLoc := nanLoc }

/-- `uploadUniform1ivVals`: upload an integer vector if the named uniform's
location resolved, else silently skip. -/
def uploadUniform1ivVals (binary : GPGPUBinary) (uniformName : String)
    (values : List Nat) : List GLCmd :=
  match binary.uniformLocations uniformName with
  | some varLoc => [GLCmd.uniform1iv varLoc values]
  | none => []

/-- `uploadUniform1iVals`: upload a single integer if the named uniform's
location resolved, else silently skip. -/
def uploadUniform1iVals (binary : GPGPUBinary) (uniformName : String)
    (values : Option Nat) : List GLCmd :=
  match binary.uniformLocations uniformName with
  | some varLoc => [GLCmd.uniform1i varLoc values]
  | none => []

/-- The slice-offset upload step of `runProgram`'s input loop:
`if (input.texData.slice != null) upload offset<name>`. -/
def offsetCmds (binary : GPGPUBinary) (varName : String) (td : TextureData) :
    List GLCmd :=
  match td.slice with
  | some s => uploadUniform1iVals binary ("offset" ++ varName) (some s.flatOffset)
  | none => []

/-- The shader-visible shape of a texture-backed operand, as computed in
`runProgram`'s input loop: the packed transform when the program uses packed
textures, the squeezed logical shape otherwise. -/
def shaderVisibleShape (binary : GPGPUBinary) (input : TensorData) : List Nat :=
  if binary.program.usesPackedTextures then
    packedShapeTransform input.shape
  else
    squeezeShape input.shape

/-- `valuesPerRow`: `Math.ceil(shape[rank - 1] * 0.5)` over the
shader-visible shape (`none` is the `NaN` from an out-of-bounds read). -/
def valuesPerRowOf (shape : List Nat) : Option Nat :=
  (jsIdx shape ((shape.length : Int) - 1)).map ceilHalf

/-- `texelsInBatch`: `valuesPerRow * Math.ceil(shape[rank - 2] * 0.5)` over
the shader-visible shape; `NaN` (`none`) propagates through the product. -/
def texelsInBatchOf (shape : List Nat) : Option Nat :=
  match valuesPerRowOf shape, (jsIdx shape ((shape.length : Int) - 2)).map ceilHalf with
  | some a, some b => some (a * b)
  | _, _ => none

/-- The texture-backed branch of `runProgram`'s input loop: upload the
layout uniform family wherever a location resolved, the optional slice
offset, then bind the input texture to unit `i` at the resolved primary
location. -/
def setUserInputTexture (binary : GPGPUBinary) (i : Nat) (input : TensorData)
    (varName : String) (varLoc : Nat) : List GLCmd :=
  let td := input.texData.getD defaultTextureData
  let shape := shaderVisibleShape binary input
  let texShape := td.texShape
  uploadUniform1ivVals binary ("shape" ++ varName) shape
  ++ uploadUniform1ivVals binary ("strides" ++ varName) (computeStrides shape)
  ++ uploadUniform1ivVals binary ("texShape" ++ varName) texShape
  ++ uploadUniform1ivVals binary ("packedTexShape" ++ varName)
       [ceilHalf (texShape.getD 0 0), ceilHalf (texShape.getD 1 0)]
  ++ uploadUniform1iVals binary ("valuesPerRow" ++ varName) (valuesPerRowOf shape)
  ++ uploadUniform1iVals binary ("texelsInBatch" ++ varName) (texelsInBatchOf shape)
  ++ offsetCmds binary varName td
  ++ [GLCmd.setInputMatrixTexture td.texture varLoc i]

/-- One iteration of `runProgram`'s `inputs.forEach((input, i) => ...)`:
skip if the primary location is unresolved; a uniform-backed operand is
uploaded as a scalar (element count < 2) or vector; a texture-backed operand
gets its layout uniform family, optional slice offset, and texture binding. -/
def setUserInput (binary : GPGPUBinary) (i : Nat) (input : TensorData) :
    List GLCmd :=
  let varName := binary.program.variableNames.getD i ""
  match binary.uniformLocations varName with
  | none => []
  | some varLoc =>
    if input.isUniform then
      if sizeFromShape input.shape < 2 then
        [GLCmd.uniform1f varLoc (FVal.num (input.uniformValues.headD 0))]
      else
        [GLCmd.uniform1fv varLoc input.uniformValues]
    else
      setUserInputTexture binary i input varName varLoc

/-- The output-uniform block of `runProgram`, executed for non-scalar
outputs: shape, strides, texture shape, packed texture shape (computed
unconditionally, the `usesPackedTextures` conditional is commented out in
the source), texels-in-logical-row, texels-in-batch. -/
def uploadOutputUniforms (binary : GPGPUBinary) (output : TensorData) :
    List GLCmd :=
  if output.shape.length > 0 then
    let outputShape := output.shape
    let outputTexShape := (output.texData.getD defaultTextureData).texShape
    uploadUniform1ivVals binary "outputShape" outputShape
    ++ uploadUniform1ivVals binary "outputStrides" (computeStrides outputShape)
    ++ uploadUniform1ivVals binary "outputTexShape" outputTexShape
    ++ uploadUniform1ivVals binary "outputPackedTexShape"
         [ceilHalf (outputTexShape.getD 0 0), ceilHalf (outputTexShape.getD 1 0)]
    ++ uploadUniform1iVals binary "outputTexelsInLogicalRow" (valuesPerRowOf outputShape)
    ++ uploadUniform1iVals binary "outputTexelsInBatch" (texelsInBatchOf outputShape)
  else []

/-- Every GL call `runProgram` issues before the caller-supplied setup hook:
output binding (packed or unpacked), program activation, special constants
(`INFINITY` only under WEBGL_VERSION 1 and only when resolved, `NAN` when
resolved), the per-input loop, and the output uniform block. -/
def standardCmds (webglVersion : Nat) (binary : GPGPUBinary)
    (inputs : List TensorData) (output : TensorData) : List GLCmd :=
  let outTd := output.texData.getD defaultTextureData
  let outTexShape := outTd.texShape
  (if outTd.isPacked then
     [GLCmd.setOutputPackedMatrixTexture outTd.texture
        (outTexShape.getD 0 0) (outTexShape.getD 1 0)]
   else
     [GLCmd.setOutputMatrixTexture outTd.texture
        (outTexShape.getD 0 0) (outTexShape.getD 1 0)])
  ++ [GLCmd.setProgram binary.webGLProgram]
  ++ (if webglVersion = 1 then
        match binary.infLoc with
        | some l => [GLCmd.uniform1f l FVal.infinity]
        | none => []
      else [])
  ++ (match binary.nanLoc with
      | some l => [GLCmd.uniform1f l FVal.nan]
      | none => [])
  ++ (inputs.enum.map (fun p => setUserInput binary p.1 p.2)).flatten
  ++ uploadOutputUniforms binary output

/-- The full trace of a successful `runProgram` call: the standard uploads,
then the optional caller-supplied setup hook (modelled as the GL calls it
issues, given the program handle), then the dispatch. -/
def runTrace (webglVersion : Nat) (binary : GPGPUBinary)
    (inputs : List TensorData) (output : TensorData)
    (customSetup : Option (Nat → List GLCmd)) : List GLCmd :=
  standardCmds webglVersion binary inputs output
  ++ (match customSetup with
      | some f => f binary.webGLProgram
      | none => [])
  ++ [GLCmd.executeProgram]

/-- `runProgram`: validate the inputs against the recorded input
`ShapeInfo`s and the output against the recorded output `ShapeInfo` before
issuing any GL call; on success issue the full trace. -/
def runProgram (webglVersion : Nat) (binary : GPGPUBinary)
    (inputs : List TensorData) (output : TensorData)
    (customSetup : Option (Nat → List GLCmd)) :
    Except ShapeMismatch (List GLCmd) :=
  match validateBinaryAndProgram binary.inShapeInfos inputs with
  | .error e => .error e
  | .ok _ =>
    match validateBinaryAndProgram [binary.outShapeInfo] [output] with
    | .error e => .error e
    | .ok _ => .ok (runTrace webglVersion binary inputs output customSetup)

/-- One step of replaying `uniform1f` writes against a location. -/
def upd1f (loc : Nat) (acc : Option FVal) (c : GLCmd) : Option FVal :=
  match c with
  | GLCmd.uniform1f l v => if l = loc then some v else acc
  | _ => acc

/-- The value a location holds at the end of a command list, considering
`uniform1f` writes (later writes win). -/
def finalUniform1f (cmds : List GLCmd) (loc : Nat) : Option FVal :=
  cmds.foldl (upd1f loc) none

/-- Whether a command is a `uniform1f` write to `loc`. -/
def isWrite1f (loc : Nat) (c : GLCmd) : Bool :=
  match c with
  | GLCmd.uniform1f l _ => l == loc
  | _ => false

/-- Whether a command list contains a `uniform1f` write to `loc`. -/
def writes1f (cmds : List GLCmd) (loc : Nat) : Bool :=
  cmds.any (isWrite1f loc)

/-- Whether a `runProgram` result succeeded with a trace containing a
command satisfying `p`. -/
def okTraceHas (r : Except ShapeMismatch (List GLCmd)) (p : GLCmd → Bool) : Bool :=
  match r with
  | .ok t => t.any p
  | .error _ => false

/-- Whether a `runProgram` result succeeded. -/
def isOkB (r : Except ShapeMismatch (List GLCmd)) : Bool :=
  match r with
  | .ok _ => true
  | .error _ => false

/-- Recognizer for a NaN constant upload. -/
def isNaNUpload (c : GLCmd) : Bool :=
  match c with
  | GLCmd.uniform1f _ FVal.nan => true
  | _ => false

/-! ### Validation lemmas -/

theorem validateOne_error_of_shape_ne (s : ShapeInfo) (x : TensorData)
    (h : s.logicalShape ≠ x.shape) :
    validateOne s x = .error (.logicalShapeMismatch s.logicalShape x.shape) := by
  have hb : arraysEqual s.logicalShape x.shape = false := by
    simpa [arraysEqual] using h
  simp [validateOne, hb]

theorem validateOne_ok_uniform (s : ShapeInfo) (x : TensorData)
    (h : arraysEqual s.logicalShape x.shape = true)
    (hs : s.isUniform = true) (hx : x.isUniform = true) :
    validateOne s x = .ok () := by
  simp [validateOne, h, hs, hx]

theorem validateOne_ok_texMatch (s : ShapeInfo) (x : TensorData)
    (h : arraysEqual s.logicalShape x.shape = true)
    (ht : arraysEqualOpt s.texShape (currentTexShape x) = true) :
    validateOne s x = .ok () := by
  cases hb : (s.isUniform && x.isUniform) <;> simp [validateOne, h, hb, ht]

theorem validateOne_error_of_texShape (s : ShapeInfo) (x : TensorData)
    (h : arraysEqual s.logicalShape x.shape = true)
    (hu : ¬(s.isUniform = true ∧ x.isUniform = true))
    (ht : arraysEqualOpt s.texShape (currentTexShape x) = false) :
    validateOne s x = .error (.texShapeMismatch s.texShape (currentTexShape x)) := by
  have hb : (s.isUniform && x.isUniform) = false := by
    cases hs : s.isUniform <;> cases hx : x.isUniform <;> simp_all
  simp [validateOne, h, hb, ht]

theorem validateList_error_of_error_at (ss : List ShapeInfo) :
    ∀ (xs : List TensorData) (i : Nat) (h₁ : i < ss.length) (h₂ : i < xs.length)
      (e : ShapeMismatch),
      validateOne (ss.get ⟨i, h₁⟩) (xs.get ⟨i, h₂⟩) = .error e →
      ∃ e', validateList ss xs = .error e' := by
  induction ss with
  | nil => intro xs i h₁; exact absurd h₁ (by simp)
  | cons s ss ih =>
    intro xs i h₁ h₂ e he
    cases xs with
    | nil => exact absurd h₂ (by simp)
    | cons x xs =>
      cases i with
      | zero =>
        refine ⟨e, ?_⟩
        simp only [List.get] at he
        simp [validateList, he]
      | succ i =>
        cases hv : validateOne s x with
        | error e₀ => exact ⟨e₀, by simp [validateList, hv]⟩
        | ok u =>
          obtain ⟨e', he'⟩ := ih xs i (by simpa using h₁) (by simpa using h₂) e
            (by simpa using he)
          exact ⟨e', by simp [validateList, hv, he']⟩

theorem validateList_ok_of_all (ss : List ShapeInfo) :
    ∀ (xs : List TensorData),
      (∀ (i : Nat) (h₁ : i < ss.length) (h₂ : i < xs.length),
        validateOne (ss.get ⟨i, h₁⟩) (xs.get ⟨i, h₂⟩) = .ok ()) →
      validateList ss xs = .ok () := by
  induction ss with
  | nil => intro xs _; cases xs <;> simp [validateList]
  | cons s ss ih =>
    intro xs hall
    cases xs with
    | nil => simp [validateList]
    | cons x xs =>
      have h0 : validateOne s x = .ok () := by
        simpa using hall 0 (by simp) (by simp)
      have hrest := ih xs (fun i h₁ h₂ => by
        simpa using hall (i + 1) (by simpa using h₁) (by simpa using h₂))
      simp [validateList, h0, hrest]

theorem validateBAP_error_of_error_at (ss : List ShapeInfo) (xs : List TensorData)
    (i : Nat) (h₁ : i < ss.length) (h₂ : i < xs.length) (e : ShapeMismatch)
    (he : validateOne (ss.get ⟨i, h₁⟩) (xs.get ⟨i, h₂⟩) = .error e) :
    ∃ e', validateBinaryAndProgram ss xs = .error e' := by
  by_cases hl : ss.length = xs.length
  · obtain ⟨e', h⟩ := validateList_error_of_error_at ss xs i h₁ h₂ e he
    refine ⟨e', ?_⟩
    unfold validateBinaryAndProgram
    rw [if_neg (fun hc => hc hl)]
    exact h
  · exact ⟨.countMismatch ss.length xs.length, by
      unfold validateBinaryAndProgram; rw [if_pos hl]⟩

theorem runProgram_error_of_inputs (v : Nat) (b : GPGPUBinary)
    (ins : List TensorData) (outp : TensorData) (hook : Option (Nat → List GLCmd))
    (h : ∃ e, validateBinaryAndProgram b.inShapeInfos ins = .error e) :
    ∃ e, runProgram v b ins outp hook = .error e := by
  obtain ⟨e, he⟩ := h
  exact ⟨e, by simp [runProgram, he]⟩

/-- C1: if the operand count differs from the recorded input count, or some
operand's logical shape differs from the recorded logical shape, then
`runProgram` fails with a `ShapeMismatch` error; since the result is
`Except.error`, no GL command — in particular no `executeProgram` dispatch —
is issued. -/
theorem runProgram_rejects_shape_or_count_mismatch
    (v : Nat) (b : GPGPUBinary) (ins : List TensorData) (outp : TensorData)
    (hook : Option (Nat → List GLCmd))
    (h : b.inShapeInfos.length ≠ ins.length ∨
         ∃ (i : Nat) (h₁ : i < b.inShapeInfos.length) (h₂ : i < ins.length),
           (b.inShapeInfos.get ⟨i, h₁⟩).logicalShape ≠ (ins.get ⟨i, h₂⟩).shape) :
    ∃ e, runProgram v b ins outp hook = Except.error e := by
  apply runProgram_error_of_inputs
  rcases h with h | ⟨i, h₁, h₂, hne⟩
  · exact ⟨.countMismatch b.inShapeInfos.length ins.length, by
      unfold validateBinaryAndProgram; rw [if_pos h]⟩
  · exact validateBAP_error_of_error_at _ _ i h₁ h₂ _
      (validateOne_error_of_shape_ne _ _ hne)

def fixProg : GPGPUProgram :=
  { variableNames := ["A"], outputShape := [2], userCode := "code",
    usesPackedTextures := false, isPackShader := false, constructorName := "BinaryOp" }

def fixOutTD : TextureData :=
  { texShape := [1, 2], isPacked := false, slice := none, texture := 7 }

def fixOut : TensorData :=
  { shape := [2], texData := some fixOutTD, isUniform := false, uniformValues := [] }

def fixOutShapeInfo : ShapeInfo :=
  { logicalShape := [2], texShape := some [1, 2], isUniform := false,
    isPacked := false, flatOffset := none }

def fixB1 : GPGPUBinary :=
  { webGLProgram := 3, program := fixProg, uniformLocations := fun _ => none,
    source := "src", inShapeInfos := [defaultShapeInfo],
    outShapeInfo := fixOutShapeInfo, infLoc := none, nanLoc := none }

theorem runProgram_rejects_shape_or_count_mismatch_witness :
    ∃ e, runProgram 2 fixB1 [] fixOut none = Except.error e :=
  runProgram_rejects_shape_or_count_mismatch 2 fixB1 [] fixOut none
    (Or.inl (by decide))

/-- C3: for an operand whose recorded and current logical shapes match:
if both sides are uniform-backed, validation performs no further check and
accepts that operand; otherwise, if the current physical texture shape
differs from the recorded one, `runProgram` fails with a `ShapeMismatch`
error and (the result being `Except.error`) never issues the dispatch. -/
theorem validation_uniform_skip_and_texShape_mismatch_fails :
    (∀ (s : ShapeInfo) (x : TensorData),
      arraysEqual s.logicalShape x.shape = true →
      s.isUniform = true → x.isUniform = true →
      validateOne s x = Except.ok ())
    ∧ (∀ (v : Nat) (b : GPGPUBinary) (ins : List TensorData) (outp : TensorData)
        (hook : Option (Nat → List GLCmd)) (i : Nat)
        (h₁ : i < b.inShapeInfos.length) (h₂ : i < ins.length),
        arraysEqual (b.inShapeInfos.get ⟨i, h₁⟩).logicalShape
          (ins.get ⟨i, h₂⟩).shape = true →
        ¬((b.inShapeInfos.get ⟨i, h₁⟩).isUniform = true ∧
           (ins.get ⟨i, h₂⟩).isUniform = true) →
        arraysEqualOpt (b.inShapeInfos.get ⟨i, h₁⟩).texShape
          (currentTexShape (ins.get ⟨i, h₂⟩)) = false →
        ∃ e, runProgram v b ins outp hook = Except.error e) := by
  constructor
  · exact fun s x h hs hx => validateOne_ok_uniform s x h hs hx
  · intro v b ins outp hook i h₁ h₂ hsh hu ht
    apply runProgram_error_of_inputs
    exact validateBAP_error_of_error_at _ _ i h₁ h₂ _
      (validateOne_error_of_texShape _ _ hsh hu ht)

def fixS3u : ShapeInfo :=
  { logicalShape := [3], texShape := none, isUniform := true,
    isPacked := false, flatOffset := none }

def fixX3u : TensorData :=
  { shape := [3], texData := none, isUniform := true, uniformValues := [1, 2, 3] }

def fixS3 : ShapeInfo :=
  { logicalShape := [2], texShape := some [1, 2], isUniform := false,
    isPacked := false, flatOffset := none }

def fixX3 : TensorData :=
  { shape := [2],
    texData := some { texShape := [2, 1], isPacked := false, slice := none, texture := 4 },
    isUniform := false, uniformValues := [] }

def fixB3 : GPGPUBinary :=
  { webGLProgram := 3, program := fixProg, uniformLocations := fun _ => none,
    source := "src", inShapeInfos := [fixS3],
    outShapeInfo := fixOutShapeInfo, infLoc := none, nanLoc := none }

theorem validation_uniform_skip_and_texShape_mismatch_fails_witness :
    validateOne fixS3u fixX3u = Except.ok () ∧
    (∃ e, runProgram 2 fixB3 [fixX3] fixOut none = Except.error e) :=
  ⟨validation_uniform_skip_and_texShape_mismatch_fails.1 fixS3u fixX3u
      (by decide) (by decide) (by decide),
   validation_uniform_skip_and_texShape_mismatch_fails.2 2 fixB3 [fixX3] fixOut
      none 0 (by decide) (by decide) (by decide) (by decide) (by decide)⟩

/-- C6: `validateBinaryAndProgram` accepts any operand list that agrees with
the recorded `ShapeInfo`s on logical shape and on physical texture shape (or
is uniform-backed on both sides); the recorded and current packed-layout
flags and slice offsets are unconstrained, so validation succeeds even when
they differ. -/
theorem validate_accepts_layout_agnostic (ss : List ShapeInfo) (xs : List TensorData)
    (hlen : ss.length = xs.length)
    (hall : ∀ (i : Nat) (h₁ : i < ss.length) (h₂ : i < xs.length),
      arraysEqual (ss.get ⟨i, h₁⟩).logicalShape (xs.get ⟨i, h₂⟩).shape = true ∧
      (((ss.get ⟨i, h₁⟩).isUniform = true ∧ (xs.get ⟨i, h₂⟩).isUniform = true) ∨
        arraysEqualOpt (ss.get ⟨i, h₁⟩).texShape
          (currentTexShape (xs.get ⟨i, h₂⟩)) = true)) :
    validateBinaryAndProgram ss xs = Except.ok () := by
  have hlist : validateList ss xs = .ok () := by
    apply validateList_ok_of_all
    intro i h₁ h₂
    obtain ⟨hsh, hd⟩ := hall i h₁ h₂
    rcases hd with ⟨hs, hx⟩ | ht
    · exact validateOne_ok_uniform _ _ hsh hs hx
    · exact validateOne_ok_texMatch _ _ hsh ht
  unfold validateBinaryAndProgram
  rw [if_neg (fun hc => hc hlen)]
  exact hlist

def fixS6 : ShapeInfo :=
  { logicalShape := [2, 2], texShape := some [2, 2], isUniform := false,
    isPacked := true, flatOffset := some 9 }

def fixX6 : TensorData :=
  { shape := [2, 2],
    texData := some { texShape := [2, 2], isPacked := false,
                      slice := some { flatOffset := 3 }, texture := 5 },
    isUniform := false, uniformValues := [] }

theorem validate_accepts_layout_agnostic_witness :
    validateBinaryAndProgram [fixS6] [fixX6] = Except.ok () :=
  validate_accepts_layout_agnostic [fixS6] [fixX6] (by decide)
    (fun i h₁ h₂ => by
      have hi : i = 0 := by simp at h₁; omega
      subst hi
      simp only [List.get]
      exact ⟨by decide, Or.inr (by decide)⟩)

/-! ### Trace structure lemmas -/

theorem runProgram_ok_trace {v : Nat} {b : GPGPUBinary} {ins : List TensorData}
    {outp : TensorData} {hook : Option (Nat → List GLCmd)} {t : List GLCmd}
    (h : runProgram v b ins outp hook = .ok t) :
    t = runTrace v b ins outp hook := by
  unfold runProgram at h
  cases h₁ : validateBinaryAndProgram b.inShapeInfos ins with
  | error e => rw [h₁] at h; simp at h
  | ok u =>
    rw [h₁] at h
    cases h₂ : validateBinaryAndProgram [b.outShapeInfo] [outp] with
    | error e => rw [h₂] at h; simp at h
    | ok u₂ => rw [h₂] at h; simpa using h.symm

theorem mem_uploadUniform1ivVals {b : GPGPUBinary} {n : String} {vs : List Nat}
    {c : GLCmd} (hc : c ∈ uploadUniform1ivVals b n vs) :
    ∃ l, b.uniformLocations n = some l ∧ c = GLCmd.uniform1iv l vs := by
  unfold uploadUniform1ivVals at hc
  split at hc
  next l heq => simp at hc; exact ⟨l, heq, hc⟩
  next => simp at hc

theorem mem_uploadUniform1iVals {b : GPGPUBinary} {n : String} {v : Option Nat}
    {c : GLCmd} (hc : c ∈ uploadUniform1iVals b n v) :
    ∃ l, b.uniformLocations n = some l ∧ c = GLCmd.uniform1i l v := by
  unfold uploadUniform1iVals at hc
  split at hc
  next l heq => simp at hc; exact ⟨l, heq, hc⟩
  next => simp at hc

theorem mem_offsetCmds {b : GPGPUBinary} {n : String} {td : TextureData}
    {c : GLCmd} (hc : c ∈ offsetCmds b n td) :
    ∃ s l, td.slice = some s ∧ b.uniformLocations ("offset" ++ n) = some l ∧
      c = GLCmd.uniform1i l (some s.flatOffset) := by
  unfold offsetCmds at hc
  split at hc
  next s heq =>
    obtain ⟨l, hl, hcl⟩ := mem_uploadUniform1iVals hc
    exact ⟨s, l, heq, hl, hcl⟩
  next => simp at hc

theorem setUserInput_eq_none {b : GPGPUBinary} {i : Nat} (x : TensorData)
    (hv : b.uniformLocations (b.program.variableNames.getD i "") = none) :
    setUserInput b i x = [] := by
  simp only [setUserInput]
  rw [hv]

theorem setUserInput_eq_uniform_small {b : GPGPUBinary} {i : Nat}
    {x : TensorData} {varLoc : Nat}
    (hv : b.uniformLocations (b.program.variableNames.getD i "") = some varLoc)
    (hu : x.isUniform = true) (hs : sizeFromShape x.shape < 2) :
    setUserInput b i x = [GLCmd.uniform1f varLoc (FVal.num (x.uniformValues.headD 0))] := by
  simp only [setUserInput]
  rw [hv]
  simp [hu, hs]

theorem setUserInput_eq_uniform_large {b : GPGPUBinary} {i : Nat}
    {x : TensorData} {varLoc : Nat}
    (hv : b.uniformLocations (b.program.variableNames.getD i "") = some varLoc)
    (hu : x.isUniform = true) (hs : ¬ sizeFromShape x.shape < 2) :
    setUserInput b i x = [GLCmd.uniform1fv varLoc x.uniformValues] := by
  simp only [setUserInput]
  rw [hv]
  simp [hu, hs]

theorem setUserInput_eq_tex {b : GPGPUBinary} {i : Nat}
    {x : TensorData} {varLoc : Nat}
    (hv : b.uniformLocations (b.program.variableNames.getD i "") = some varLoc)
    (hu : x.isUniform = false) :
    setUserInput b i x =
      setUserInputTexture b i x (b.program.variableNames.getD i "") varLoc := by
  simp only [setUserInput]
  rw [hv]
  simp [hu]

theorem setUserInputTexture_cmd_shapes {b : GPGPUBinary} {i : Nat}
    {x : TensorData} {n : String} {l : Nat} {c : GLCmd}
    (hc : c ∈ setUserInputTexture b i x n l) :
    (∃ l' v, c = GLCmd.uniform1f l' (FVal.num v)) ∨
    (∃ l' vs, c = GLCmd.uniform1fv l' vs) ∨
    (∃ l' vs, c = GLCmd.uniform1iv l' vs) ∨
    (∃ l' v, c = GLCmd.uniform1i l' v) ∨
    (∃ tx l' u, c = GLCmd.setInputMatrixTexture tx l' u) := by
  unfold setUserInputTexture at hc
  simp only [List.mem_append] at hc
  rcases hc with ((((((h | h) | h) | h) | h) | h) | h) | h
  · exact Or.inr (Or.inr (Or.inl ⟨_, _, (mem_uploadUniform1ivVals h).choose_spec.2⟩))
  · exact Or.inr (Or.inr (Or.inl ⟨_, _, (mem_uploadUniform1ivVals h).choose_spec.2⟩))
  · exact Or.inr (Or.inr (Or.inl ⟨_, _, (mem_uploadUniform1ivVals h).choose_spec.2⟩))
  · exact Or.inr (Or.inr (Or.inl ⟨_, _, (mem_uploadUniform1ivVals h).choose_spec.2⟩))
  · exact Or.inr (Or.inr (Or.inr (Or.inl ⟨_, _, (mem_uploadUniform1iVals h).choose_spec.2⟩)))
  · exact Or.inr (Or.inr (Or.inr (Or.inl ⟨_, _, (mem_uploadUniform1iVals h).choose_spec.2⟩)))
  · obtain ⟨s, l', _, _, hcl⟩ := mem_offsetCmds h
    exact Or.inr (Or.inr (Or.inr (Or.inl ⟨_, _, hcl⟩)))
  · simp at h; subst h
    exact Or.inr (Or.inr (Or.inr (Or.inr ⟨_, _, _, rfl⟩)))

theorem setUserInput_cmd_shapes {b : GPGPUBinary} {i : Nat} {x : TensorData}
    {c : GLCmd} (hc : c ∈ setUserInput b i x) :
    (∃ l v, c = GLCmd.uniform1f l (FVal.num v)) ∨
    (∃ l vs, c = GLCmd.uniform1fv l vs) ∨
    (∃ l vs, c = GLCmd.uniform1iv l vs) ∨
    (∃ l v, c = GLCmd.uniform1i l v) ∨
    (∃ tx l u, c = GLCmd.setInputMatrixTexture tx l u) := by
  cases hv : b.uniformLocations (b.program.variableNames.getD i "") with
  | none => rw [setUserInput_eq_none x hv] at hc; simp at hc
  | some varLoc =>
    cases hu : x.isUniform with
    | true =>
      by_cases hs : sizeFromShape x.shape < 2
      · rw [setUserInput_eq_uniform_small hv hu hs] at hc
        simp at hc; subst hc; exact Or.inl ⟨_, _, rfl⟩
      · rw [setUserInput_eq_uniform_large hv hu hs] at hc
        simp at hc; subst hc; exact Or.inr (Or.inl ⟨_, _, rfl⟩)
    | false =>
      rw [setUserInput_eq_tex hv hu] at hc
      exact setUserInputTexture_cmd_shapes hc

theorem uploadOutputUniforms_cmd_shapes {b : GPGPUBinary} {outp : TensorData}
    {c : GLCmd} (hc : c ∈ uploadOutputUniforms b outp) :
    (∃ l vs, c = GLCmd.uniform1iv l vs) ∨ (∃ l v, c = GLCmd.uniform1i l v) := by
  unfold uploadOutputUniforms at hc
  split at hc
  · simp only [List.mem_append] at hc
    rcases hc with ((((h | h) | h) | h) | h) | h
    · exact Or.inl ⟨_, _, (mem_uploadUniform1ivVals h).choose_spec.2⟩
    · exact Or.inl ⟨_, _, (mem_uploadUniform1ivVals h).choose_spec.2⟩
    · exact Or.inl ⟨_, _, (mem_uploadUniform1ivVals h).choose_spec.2⟩
    · exact Or.inl ⟨_, _, (mem_uploadUniform1ivVals h).choose_spec.2⟩
    · exact Or.inr ⟨_, _, (mem_uploadUniform1iVals h).choose_spec.2⟩
    · exact Or.inr ⟨_, _, (mem_uploadUniform1iVals h).choose_spec.2⟩
  · simp at hc

theorem mem_enum_of_lt {α : Type} (l : List α) (i : Nat) (h : i < l.length) :
    (i, l.get ⟨i, h⟩) ∈ l.enum := by
  have hg : l.enum.get? i = some (i, l.get ⟨i, h⟩) := by
    rw [List.get?_eq_getElem?, List.getElem?_enum, ← List.get?_eq_getElem?,
      List.get?_eq_get h]
    rfl
  exact List.get?_mem hg

theorem mem_standardCmds_of_mem_setUserInput (v : Nat) (b : GPGPUBinary)
    (ins : List TensorData) (outp : TensorData) {i : Nat} (h : i < ins.length)
    {c : GLCmd} (hc : c ∈ setUserInput b i (ins.get ⟨i, h⟩)) :
    c ∈ standardCmds v b ins outp := by
  unfold standardCmds
  simp only [List.mem_append]
  refine Or.inl (Or.inr ?_)
  refine List.mem_flatten.mpr ⟨setUserInput b i (ins.get ⟨i, h⟩), ?_, hc⟩
  exact List.mem_map.mpr ⟨(i, ins.get ⟨i, h⟩), mem_enum_of_lt ins i h, rfl⟩

theorem mem_standardCmds_of_mem_outputUniforms (v : Nat) (b : GPGPUBinary)
    (ins : List TensorData) (outp : TensorData) {c : GLCmd}
    (hc : c ∈ uploadOutputUniforms b outp) : c ∈ standardCmds v b ins outp := by
  unfold standardCmds
  simp only [List.mem_append]
  exact Or.inr hc

theorem mem_runTrace_of_mem_standardCmds {v : Nat} {b : GPGPUBinary}
    {ins : List TensorData} {outp : TensorData} {hook : Option (Nat → List GLCmd)}
    {c : GLCmd} (hc : c ∈ standardCmds v b ins outp) :
    c ∈ runTrace v b ins outp hook := by
  unfold runTrace
  simp only [List.mem_append]
  exact Or.inl (Or.inl hc)

theorem executeProgram_not_mem_setUserInput {b : GPGPUBinary} {i : Nat}
    {x : TensorData} (hc : GLCmd.executeProgram ∈ setUserInput b i x) : False := by
  rcases setUserInput_cmd_shapes hc with ⟨_, _, h'⟩ | ⟨_, _, h'⟩ | ⟨_, _, h'⟩ |
    ⟨_, _, h'⟩ | ⟨_, _, _, h'⟩ <;> simp at h'

theorem executeProgram_not_mem_standardCmds (v : Nat) (b : GPGPUBinary)
    (ins : List TensorData) (outp : TensorData) :
    GLCmd.executeProgram ∉ standardCmds v b ins outp := by
  intro hc
  unfold standardCmds at hc
  simp only [List.mem_append] at hc
  rcases hc with ((((h | h) | h) | h) | h) | h
  · split at h <;> simp at h
  · simp at h
  · split at h
    · split at h <;> simp at h
    · simp at h
  · split at h <;> simp at h
  · obtain ⟨lc, hlc, hcl⟩ := List.mem_flatten.mp h
    obtain ⟨p, _, hfp⟩ := List.mem_map.mp hlc
    rw [← hfp] at hcl
    exact executeProgram_not_mem_setUserInput hcl
  · rcases uploadOutputUniforms_cmd_shapes h with ⟨_, _, h'⟩ | ⟨_, _, h'⟩ <;> simp at h'

theorem standardCmds_uniform1f_cases {v : Nat} {b : GPGPUBinary}
    {ins : List TensorData} {outp : TensorData} {l : Nat} {fv : FVal}
    (hc : GLCmd.uniform1f l fv ∈ standardCmds v b ins outp) :
    (v = 1 ∧ b.infLoc = some l ∧ fv = FVal.infinity) ∨
    (b.nanLoc = some l ∧ fv = FVal.nan) ∨ (∃ x, fv = FVal.num x) := by
  unfold standardCmds at hc
  simp only [List.mem_append] at hc
  rcases hc with ((((h | h) | h) | h) | h) | h
  · split at h <;> simp at h
  · simp at h
  · split at h
    next hv1 =>
      split at h
      next heq => simp at h; exact Or.inl ⟨hv1, by rw [heq, h.1], h.2⟩
      next => simp at h
    next => simp at h
  · split at h
    next heq => simp at h; exact Or.inr (Or.inl ⟨by rw [heq, h.1], h.2⟩)
    next => simp at h
  · obtain ⟨lc, hlc, hcl⟩ := List.mem_flatten.mp h
    obtain ⟨p, _, hfp⟩ := List.mem_map.mp hlc
    rw [← hfp] at hcl
    rcases setUserInput_cmd_shapes hcl with ⟨l', x, h'⟩ | ⟨_, _, h'⟩ | ⟨_, _, h'⟩ |
      ⟨_, _, h'⟩ | ⟨_, _, _, h'⟩
    · refine Or.inr (Or.inr ⟨x, ?_⟩)
      injection h' with _ h2
    · simp at h'
    · simp at h'
    · simp at h'
    · simp at h'
  · rcases uploadOutputUniforms_cmd_shapes h with ⟨_, _, h'⟩ | ⟨_, _, h'⟩ <;> simp at h'

theorem nan_mem_standardCmds {v : Nat} {b : GPGPUBinary} {ins : List TensorData}
    {outp : TensorData} {l : Nat} (h : b.nanLoc = some l) :
    GLCmd.uniform1f l FVal.nan ∈ standardCmds v b ins outp := by
  unfold standardCmds
  rw [h]
  refine List.mem_append_left _ (List.mem_append_left _ (List.mem_append_right _ ?_))
  simp

theorem infinity_mem_standardCmds {v : Nat} {b : GPGPUBinary} {ins : List TensorData}
    {outp : TensorData} {l : Nat} (hv : v = 1) (h : b.infLoc = some l) :
    GLCmd.uniform1f l FVal.infinity ∈ standardCmds v b ins outp := by
  subst hv
  unfold standardCmds
  rw [h]
  refine List.mem_append_left _ (List.mem_append_left _ (List.mem_append_left _
    (List.mem_append_right _ ?_)))
  simp

theorem upd1f_of_not_write {loc : Nat} {acc : Option FVal} {c : GLCmd}
    (h : isWrite1f loc c = false) : upd1f loc acc c = acc := by
  cases c <;> simp [upd1f, isWrite1f] at h ⊢
  exact fun hl => absurd hl h

theorem final1f_aux_no_write (loc : Nat) :
    ∀ (cmds : List GLCmd) (init : Option FVal), writes1f cmds loc = false →
      cmds.foldl (upd1f loc) init = init := by
  intro cmds
  induction cmds with
  | nil => intro init _; rfl
  | cons c rest ih =>
    intro init hw
    simp only [writes1f, List.any_cons, Bool.or_eq_false_iff] at hw
    obtain ⟨hw1, hw2⟩ := hw
    simp only [List.foldl_cons]
    rw [upd1f_of_not_write hw1]
    exact ih init (by simpa [writes1f] using hw2)

theorem final1f_aux_write_irrel (loc : Nat) :
    ∀ (cmds : List GLCmd) (i₁ i₂ : Option FVal), writes1f cmds loc = true →
      cmds.foldl (upd1f loc) i₁ = cmds.foldl (upd1f loc) i₂ := by
  intro cmds
  induction cmds with
  | nil => intro i₁ i₂ hw; simp [writes1f] at hw
  | cons c rest ih =>
    intro i₁ i₂ hw
    by_cases hr : writes1f rest loc = true
    · simp only [List.foldl_cons]
      exact ih _ _ hr
    · have hc : isWrite1f loc c = true := by
        simp only [writes1f, List.any_cons, Bool.or_eq_true] at hw
        rcases hw with hw | hw
        · exact hw
        · exact absurd (by simpa [writes1f] using hw) hr
      cases c <;> simp [isWrite1f] at hc
      next l v =>
        subst hc
        simp [List.foldl_cons, upd1f]

theorem final1f_append (a c : List GLCmd) (loc : Nat) :
    finalUniform1f (a ++ c) loc =
      if writes1f c loc then finalUniform1f c loc else finalUniform1f a loc := by
  unfold finalUniform1f
  rw [List.foldl_append]
  by_cases hw : writes1f c loc = true
  · rw [if_pos hw]
    exact final1f_aux_write_irrel loc c _ _ hw
  · have hw' : writes1f c loc = false := by simpa using hw
    rw [if_neg (by simp [hw'])]
    exact final1f_aux_no_write loc c _ hw'

theorem writes1f_of_final_some {cmds : List GLCmd} {loc : Nat} {fv : FVal}
    (h : finalUniform1f cmds loc = some fv) : writes1f cmds loc = true := by
  by_contra hw
  have hw' : writes1f cmds loc = false := by simpa using hw
  have hz := final1f_aux_no_write loc cmds none hw'
  unfold finalUniform1f at h
  rw [hz] at h
  exact Option.noConfusion h

/-- C9: in every successful execution the caller-supplied setup hook's
commands appear strictly after all standard uploads and strictly before the
dispatch (the trace is exactly standard uploads, hook commands, dispatch,
and no dispatch occurs among the standard uploads), so a uniform the hook
writes last holds the hook's value when the dispatch executes. -/
theorem customSetup_after_uploads_before_dispatch
    (v : Nat) (b : GPGPUBinary) (ins : List TensorData) (outp : TensorData)
    (f : Nat → List GLCmd) (t : List GLCmd)
    (hok : runProgram v b ins outp (some f) = Except.ok t) :
    t = standardCmds v b ins outp ++ f b.webGLProgram ++ [GLCmd.executeProgram]
    ∧ GLCmd.executeProgram ∉ standardCmds v b ins outp
    ∧ (∀ (loc : Nat) (fv : FVal), finalUniform1f (f b.webGLProgram) loc = some fv →
        finalUniform1f t loc = some fv) := by
  have ht : t = runTrace v b ins outp (some f) := runProgram_ok_trace hok
  have htrace : t = standardCmds v b ins outp ++ f b.webGLProgram
      ++ [GLCmd.executeProgram] := by
    rw [ht]; rfl
  refine ⟨htrace, executeProgram_not_mem_standardCmds v b ins outp, ?_⟩
  intro loc fv hloc
  have hw : writes1f (f b.webGLProgram) loc = true := writes1f_of_final_some hloc
  have hex : writes1f [GLCmd.executeProgram] loc = false := by
    simp [writes1f, isWrite1f]
  rw [htrace, final1f_append, hex]
  simp only [Bool.false_eq_true, if_false]
  rw [final1f_append, if_pos hw]
  exact hloc

def fixB9 : GPGPUBinary :=
  { webGLProgram := 3, program := fixProg, uniformLocations := fun _ => none,
    source := "src", inShapeInfos := [], outShapeInfo := fixOutShapeInfo,
    infLoc := none, nanLoc := none }

def fixHook : Nat → List GLCmd := fun _ => [GLCmd.uniform1f 9 (FVal.num 5)]

theorem customSetup_after_uploads_before_dispatch_witness :
    runTrace 2 fixB9 [] fixOut (some fixHook) =
      standardCmds 2 fixB9 [] fixOut ++ fixHook fixB9.webGLProgram
        ++ [GLCmd.executeProgram] ∧
    GLCmd.executeProgram ∉ standardCmds 2 fixB9 [] fixOut ∧
    (∀ (loc : Nat) (fv : FVal),
      finalUniform1f (fixHook fixB9.webGLProgram) loc = some fv →
      finalUniform1f (runTrace 2 fixB9 [] fixOut (some fixHook)) loc = some fv) :=
  customSetup_after_uploads_before_dispatch 2 fixB9 [] fixOut fixHook
    (runTrace 2 fixB9 [] fixOut (some fixHook)) (by decide)

theorem packedTexShape_mem_setUserInputTexture {b : GPGPUBinary} {i : Nat}
    {x : TensorData} {n : String} {vl l h w : Nat}
    (htex : (x.texData.getD defaultTextureData).texShape = [h, w])
    (hl : b.uniformLocations ("packedTexShape" ++ n) = some l) :
    GLCmd.uniform1iv l [ceilHalf h, ceilHalf w] ∈ setUserInputTexture b i x n vl := by
  simp only [setUserInputTexture]
  refine List.mem_append_left _ (List.mem_append_left _ (List.mem_append_left _
    (List.mem_append_left _ (List.mem_append_right _ ?_))))
  rw [htex]
  unfold uploadUniform1ivVals
  rw [hl]
  simp [List.getD]

theorem outputPackedTexShape_mem_outputUniforms {b : GPGPUBinary} {outp : TensorData}
    {oh ow lo : Nat} (hlen : outp.shape.length > 0)
    (htex : (outp.texData.getD defaultTextureData).texShape = [oh, ow])
    (hl : b.uniformLocations "outputPackedTexShape" = some lo) :
    GLCmd.uniform1iv lo [ceilHalf oh, ceilHalf ow] ∈ uploadOutputUniforms b outp := by
  simp only [uploadOutputUniforms]
  rw [if_pos hlen]
  refine List.mem_append_left _ (List.mem_append_left _ (List.mem_append_right _ ?_))
  rw [htex]
  unfold uploadUniform1ivVals
  rw [hl]
  simp [List.getD]

/-- C5: for every texture-backed input with physical texture shape `(h, w)`
and for the non-scalar output, the packed texture shape computed and
uploaded by the executor is `(ceil(h/2), ceil(w/2))` (`ceilHalf` of each
axis); nothing constrains `usesPackedTextures`, so the output packed
metadata is uploaded even when the program does not use packed layout. -/
theorem packedTexShape_ceil_upload
    (v : Nat) (b : GPGPUBinary) (ins : List TensorData) (outp : TensorData)
    (hook : Option (Nat → List GLCmd)) (t : List GLCmd)
    (hok : runProgram v b ins outp hook = Except.ok t) :
    (∀ (i : Nat) (hi : i < ins.length) (td : TextureData) (h w vl l : Nat),
      (ins.get ⟨i, hi⟩).isUniform = false →
      (ins.get ⟨i, hi⟩).texData = some td →
      td.texShape = [h, w] →
      b.uniformLocations (b.program.variableNames.getD i "") = some vl →
      b.uniformLocations ("packedTexShape" ++ b.program.variableNames.getD i "") = some l →
      GLCmd.uniform1iv l [ceilHalf h, ceilHalf w] ∈ t)
    ∧ (∀ (otd : TextureData) (oh ow lo : Nat),
      outp.shape.length > 0 →
      outp.texData = some otd →
      otd.texShape = [oh, ow] →
      b.uniformLocations "outputPackedTexShape" = some lo →
      GLCmd.uniform1iv lo [ceilHalf oh, ceilHalf ow] ∈ t) := by
  have ht : t = runTrace v b ins outp hook := runProgram_ok_trace hok
  subst ht
  constructor
  · intro i hi td h w vl l hu htd htex hvl hl
    apply mem_runTrace_of_mem_standardCmds
    apply mem_standardCmds_of_mem_setUserInput v b ins outp hi
    rw [setUserInput_eq_tex hvl hu]
    exact packedTexShape_mem_setUserInputTexture (by rw [htd]; simpa using htex) hl
  · intro otd oh ow lo hlen htd htex hl
    apply mem_runTrace_of_mem_standardCmds
    apply mem_standardCmds_of_mem_outputUniforms
    exact outputPackedTexShape_mem_outputUniforms hlen (by rw [htd]; simpa using htex) hl

def fixLoc5 : String → Option Nat := fun s =>
  if s = "A" then some 1
  else if s = "packedTexShapeA" then some 2
  else if s = "outputPackedTexShape" then some 3
  else none

def fixTD5 : TextureData :=
  { texShape := [3, 5], isPacked := false, slice := none, texture := 6 }

def fixX5 : TensorData :=
  { shape := [4], texData := some fixTD5, isUniform := false, uniformValues := [] }

def fixS5 : ShapeInfo :=
  { logicalShape := [4], texShape := some [3, 5], isUniform := false,
    isPacked := false, flatOffset := none }

def fixB5 : GPGPUBinary :=
  { webGLProgram := 3, program := fixProg, uniformLocations := fixLoc5,
    source := "src", inShapeInfos := [fixS5], outShapeInfo := fixOutShapeInfo,
    infLoc := none, nanLoc := none }

theorem packedTexShape_ceil_upload_witness :
    GLCmd.uniform1iv 2 [2, 3] ∈ runTrace 2 fixB5 [fixX5] fixOut none ∧
    GLCmd.uniform1iv 3 [1, 1] ∈ runTrace 2 fixB5 [fixX5] fixOut none :=
  ⟨(packedTexShape_ceil_upload 2 fixB5 [fixX5] fixOut none
      (runTrace 2 fixB5 [fixX5] fixOut none) (by decide)).1
      0 (by decide) fixTD5 3 5 1 2 rfl rfl rfl (by decide) (by decide),
   (packedTexShape_ceil_upload 2 fixB5 [fixX5] fixOut none
      (runTrace 2 fixB5 [fixX5] fixOut none) (by decide)).2
      fixOutTD 1 2 3 (by decide) rfl rfl (by decide)⟩

theorem texelsInBatchOf_rank1 (shape : List Nat) (h : shape.length = 1) :
    jsIdx shape ((shape.length : Int) - 2) = none ∧ texelsInBatchOf shape = none := by
  have hj : jsIdx shape ((shape.length : Int) - 2) = none := by
    unfold jsIdx
    rw [if_pos (show ((shape.length : Int) - 2) < 0 by rw [h]; decide)]
  refine ⟨hj, ?_⟩
  unfold texelsInBatchOf
  rw [hj]
  cases valuesPerRowOf shape <;> rfl

theorem texelsInBatch_mem_setUserInputTexture {b : GPGPUBinary} {i : Nat}
    {x : TensorData} {n : String} {vl l : Nat}
    (hl : b.uniformLocations ("texelsInBatch" ++ n) = some l) :
    GLCmd.uniform1i l (texelsInBatchOf (shaderVisibleShape b x)) ∈
      setUserInputTexture b i x n vl := by
  simp only [setUserInputTexture]
  refine List.mem_append_left _ (List.mem_append_left _ (List.mem_append_right _ ?_))
  unfold uploadUniform1iVals
  rw [hl]
  simp

theorem outputTexelsInBatch_mem_outputUniforms {b : GPGPUBinary} {outp : TensorData}
    {lo : Nat} (hlen : outp.shape.length > 0)
    (hl : b.uniformLocations "outputTexelsInBatch" = some lo) :
    GLCmd.uniform1i lo (texelsInBatchOf outp.shape) ∈ uploadOutputUniforms b outp := by
  simp only [uploadOutputUniforms]
  rw [if_pos hlen]
  refine List.mem_append_right _ ?_
  unfold uploadUniform1iVals
  rw [hl]
  simp

/-- C10: when the shader-visible shape of a texture-backed input, or the
output's logical shape, has rank 1, the texels-per-batch computation reads
the shape at index `rank - 2`, which is out of bounds (`jsIdx` yields no
element), so the computed `texelsInBatch` value is undefined (`none`), and
that undefined value is what the executor uploads when the location
resolved. -/
theorem texelsInBatch_rank1_undefined
    (v : Nat) (b : GPGPUBinary) (ins : List TensorData) (outp : TensorData)
    (hook : Option (Nat → List GLCmd)) (t : List GLCmd)
    (hok : runProgram v b ins outp hook = Except.ok t) :
    (∀ shape : List Nat, shape.length = 1 →
      jsIdx shape ((shape.length : Int) - 2) = none ∧ texelsInBatchOf shape = none)
    ∧ (∀ (i : Nat) (hi : i < ins.length) (vl l : Nat),
        (ins.get ⟨i, hi⟩).isUniform = false →
        (shaderVisibleShape b (ins.get ⟨i, hi⟩)).length = 1 →
        b.uniformLocations (b.program.variableNames.getD i "") = some vl →
        b.uniformLocations ("texelsInBatch" ++ b.program.variableNames.getD i "") = some l →
        GLCmd.uniform1i l none ∈ t)
    ∧ (∀ lo : Nat, outp.shape.length = 1 →
        b.uniformLocations "outputTexelsInBatch" = some lo →
        GLCmd.uniform1i lo none ∈ t) := by
  have ht : t = runTrace v b ins outp hook := runProgram_ok_trace hok
  subst ht
  refine ⟨fun shape h => texelsInBatchOf_rank1 shape h, ?_, ?_⟩
  · intro i hi vl l hu hr hvl hl
    apply mem_runTrace_of_mem_standardCmds
    apply mem_standardCmds_of_mem_setUserInput v b ins outp hi
    rw [setUserInput_eq_tex hvl hu]
    have hmem := @texelsInBatch_mem_setUserInputTexture b i (ins.get ⟨i, hi⟩)
      (b.program.variableNames.getD i "") vl l hl
    rwa [(texelsInBatchOf_rank1 _ hr).2] at hmem
  · intro lo hlen hl
    apply mem_runTrace_of_mem_standardCmds
    apply mem_standardCmds_of_mem_outputUniforms
    have hmem := @outputTexelsInBatch_mem_outputUniforms b outp lo
      (by omega) hl
    rwa [(texelsInBatchOf_rank1 _ hlen).2] at hmem

def fixLoc10 : String → Option Nat := fun s =>
  if s = "A" then some 1
  else if s = "texelsInBatchA" then some 4
  else if s = "outputTexelsInBatch" then some 5
  else none

def fixTD10 : TextureData :=
  { texShape := [1, 5], isPacked := false, slice := none, texture := 6 }

def fixX10 : TensorData :=
  { shape := [5], texData := some fixTD10, isUniform := false, uniformValues := [] }

def fixS10 : ShapeInfo :=
  { logicalShape := [5], texShape := some [1, 5], isUniform := false,
    isPacked := false, flatOffset := none }

def fixB10 : GPGPUBinary :=
  { webGLProgram := 3, program := fixProg, uniformLocations := fixLoc10,
    source := "src", inShapeInfos := [fixS10], outShapeInfo := fixOutShapeInfo,
    infLoc := none, nanLoc := none }

theorem texelsInBatch_rank1_undefined_witness :
    (jsIdx [5] ((([5] : List Nat).length : Int) - 2) = none ∧
      texelsInBatchOf [5] = none) ∧
    GLCmd.uniform1i 4 none ∈ runTrace 2 fixB10 [fixX10] fixOut none ∧
    GLCmd.uniform1i 5 none ∈ runTrace 2 fixB10 [fixX10] fixOut none :=
  ⟨(texelsInBatch_rank1_undefined 2 fixB10 [fixX10] fixOut none
      (runTrace 2 fixB10 [fixX10] fixOut none) (by decide)).1 [5] rfl,
   (texelsInBatch_rank1_undefined 2 fixB10 [fixX10] fixOut none
      (runTrace 2 fixB10 [fixX10] fixOut none) (by decide)).2.1
      0 (by decide) 1 4 rfl (by decide) (by decide) (by decide),
   (texelsInBatch_rank1_undefined 2 fixB10 [fixX10] fixOut none
      (runTrace 2 fixB10 [fixX10] fixOut none) (by decide)).2.2
      5 rfl (by decide)⟩

/-- C8: a uniform-backed input whose primary location resolved is uploaded
as a single scalar `uniform1f` of its first value when the logical element
count is below 2, and as a `uniform1fv` vector of its values otherwise;
these are the only commands the input loop emits for it. -/
theorem uniform_input_scalar_or_vector_upload
    (v : Nat) (b : GPGPUBinary) (ins : List TensorData) (outp : TensorData)
    (hook : Option (Nat → List GLCmd)) (t : List GLCmd) (i vl : Nat)
    (hok : runProgram v b ins outp hook = Except.ok t)
    (hi : i < ins.length)
    (hu : (ins.get ⟨i, hi⟩).isUniform = true)
    (hvl : b.uniformLocations (b.program.variableNames.getD i "") = some vl) :
    (sizeFromShape (ins.get ⟨i, hi⟩).shape < 2 →
      setUserInput b i (ins.get ⟨i, hi⟩) =
        [GLCmd.uniform1f vl (FVal.num ((ins.get ⟨i, hi⟩).uniformValues.headD 0))] ∧
      GLCmd.uniform1f vl (FVal.num ((ins.get ⟨i, hi⟩).uniformValues.headD 0)) ∈ t)
    ∧ (2 ≤ sizeFromShape (ins.get ⟨i, hi⟩).shape →
      setUserInput b i (ins.get ⟨i, hi⟩) =
        [GLCmd.uniform1fv vl (ins.get ⟨i, hi⟩).uniformValues] ∧
      GLCmd.uniform1fv vl (ins.get ⟨i, hi⟩).uniformValues ∈ t) := by
  have ht : t = runTrace v b ins outp hook := runProgram_ok_trace hok
  subst ht
  constructor
  · intro hs
    have heq := setUserInput_eq_uniform_small hvl hu hs
    refine ⟨heq, ?_⟩
    apply mem_runTrace_of_mem_standardCmds
    apply mem_standardCmds_of_mem_setUserInput v b ins outp hi
    rw [heq]
    simp
  · intro hs
    have hs' : ¬ sizeFromShape (ins.get ⟨i, hi⟩).shape < 2 := by omega
    have heq := setUserInput_eq_uniform_large hvl hu hs'
    refine ⟨heq, ?_⟩
    apply mem_runTrace_of_mem_standardCmds
    apply mem_standardCmds_of_mem_setUserInput v b ins outp hi
    rw [heq]
    simp

def fixProg8 : GPGPUProgram :=
  { variableNames := ["A", "B"], outputShape := [2], userCode := "code",
    usesPackedTextures := false, isPackShader := false, constructorName := "BinaryOp" }

def fixLoc8 : String → Option Nat := fun s =>
  if s = "A" then some 1 else if s = "B" then some 2 else none

def fixXVec : TensorData :=
  { shape := [1, 4], texData := none, isUniform := true,
    uniformValues := [1, 2, 3, 4] }

def fixXScalar : TensorData :=
  { shape := [1, 1], texData := none, isUniform := true, uniformValues := [7] }

def fixSVec : ShapeInfo :=
  { logicalShape := [1, 4], texShape := none, isUniform := true,
    isPacked := false, flatOffset := none }

def fixSScalar : ShapeInfo :=
  { logicalShape := [1, 1], texShape := none, isUniform := true,
    isPacked := false, flatOffset := none }

def fixB8 : GPGPUBinary :=
  { webGLProgram := 3, program := fixProg8, uniformLocations := fixLoc8,
    source := "src", inShapeInfos := [fixSVec, fixSScalar],
    outShapeInfo := fixOutShapeInfo, infLoc := none, nanLoc := none }

theorem uniform_input_scalar_or_vector_upload_witness :
    (setUserInput fixB8 0 fixXVec = [GLCmd.uniform1fv 1 [1, 2, 3, 4]] ∧
      GLCmd.uniform1fv 1 [1, 2, 3, 4] ∈
        runTrace 2 fixB8 [fixXVec, fixXScalar] fixOut none) ∧
    (setUserInput fixB8 1 fixXScalar = [GLCmd.uniform1f 2 (FVal.num 7)] ∧
      GLCmd.uniform1f 2 (FVal.num 7) ∈
        runTrace 2 fixB8 [fixXVec, fixXScalar] fixOut none) :=
  ⟨(uniform_input_scalar_or_vector_upload 2 fixB8 [fixXVec, fixXScalar] fixOut none
      (runTrace 2 fixB8 [fixXVec, fixXScalar] fixOut none) 0 1
      (by decide) (by decide) rfl (by decide)).2 (by decide),
   (uniform_input_scalar_or_vector_upload 2 fixB8 [fixXVec, fixXScalar] fixOut none
      (runTrace 2 fixB8 [fixXVec, fixXScalar] fixOut none) 1 2
      (by decide) (by decide) rfl (by decide)).1 (by decide)⟩

theorem mem_setUserInputTexture_of_mem_offsetCmds {b : GPGPUBinary} {i : Nat}
    {x : TensorData} {n : String} {vl : Nat} {c : GLCmd}
    (hc : c ∈ offsetCmds b n (x.texData.getD defaultTextureData)) :
    c ∈ setUserInputTexture b i x n vl := by
  simp only [setUserInputTexture]
  exact List.mem_append_left _ (List.mem_append_right _ hc)

/-- C4 (amended): for a texture-backed input whose primary location
resolved, the paired `offset<name>` uniform is uploaded iff the operand
carries a slice descriptor (regardless of the flat offset's value, zero
included) and the offset uniform's location resolved; the uploaded value is
the slice's flat offset. -/
theorem offset_upload_iff_slice_present
    (v : Nat) (b : GPGPUBinary) (ins : List TensorData) (outp : TensorData)
    (hook : Option (Nat → List GLCmd)) (t : List GLCmd) (i vl : Nat)
    (td : TextureData)
    (hok : runProgram v b ins outp hook = Except.ok t)
    (hi : i < ins.length)
    (hu : (ins.get ⟨i, hi⟩).isUniform = false)
    (htd : (ins.get ⟨i, hi⟩).texData = some td)
    (hvl : b.uniformLocations (b.program.variableNames.getD i "") = some vl) :
    (td.slice = none → offsetCmds b (b.program.variableNames.getD i "") td = [])
    ∧ (b.uniformLocations ("offset" ++ b.program.variableNames.getD i "") = none →
        offsetCmds b (b.program.variableNames.getD i "") td = [])
    ∧ (∀ (sl : Slice) (ol : Nat), td.slice = some sl →
        b.uniformLocations ("offset" ++ b.program.variableNames.getD i "") = some ol →
        offsetCmds b (b.program.variableNames.getD i "") td =
          [GLCmd.uniform1i ol (some sl.flatOffset)] ∧
        GLCmd.uniform1i ol (some sl.flatOffset) ∈ t) := by
  have ht : t = runTrace v b ins outp hook := runProgram_ok_trace hok
  subst ht
  refine ⟨?_, ?_, ?_⟩
  · intro hsl
    simp [offsetCmds, hsl]
  · intro hol
    unfold offsetCmds
    cases hsl : td.slice with
    | none => rfl
    | some s =>
      simp only [uploadUniform1iVals]
      rw [hol]
  · intro sl ol hsl hol
    have heq : offsetCmds b (b.program.variableNames.getD i "") td =
        [GLCmd.uniform1i ol (some sl.flatOffset)] := by
      simp only [offsetCmds, hsl, uploadUniform1iVals]
      rw [hol]
    refine ⟨heq, ?_⟩
    apply mem_runTrace_of_mem_standardCmds
    apply mem_standardCmds_of_mem_setUserInput v b ins outp hi
    rw [setUserInput_eq_tex hvl hu]
    apply mem_setUserInputTexture_of_mem_offsetCmds
    rw [htd]
    simp only [Option.getD_some]
    rw [heq]
    simp

def fixLoc4 : String → Option Nat := fun s =>
  if s = "A" then some 1 else if s = "offsetA" then some 7 else none

def fixTD4 : TextureData :=
  { texShape := [1, 2], isPacked := false,
    slice := some { flatOffset := 0 }, texture := 8 }

def fixX4 : TensorData :=
  { shape := [2], texData := some fixTD4, isUniform := false, uniformValues := [] }

def fixS4 : ShapeInfo :=
  { logicalShape := [2], texShape := some [1, 2], isUniform := false,
    isPacked := false, flatOffset := none }

def fixB4 : GPGPUBinary :=
  { webGLProgram := 3, program := fixProg, uniformLocations := fixLoc4,
    source := "src", inShapeInfos := [fixS4], outShapeInfo := fixOutShapeInfo,
    infLoc := none, nanLoc := none }

/-- C4 counterexample: an operand with a slice whose flat offset is zero
does get an offset upload — the executor guards only on the presence of the
slice (`input.texData.slice != null`), not on the offset being nonzero.
Location 7 is resolved only for `offsetA`, so the `uniform1i 7 (some 0)`
command in the successful trace is the offset upload of the value 0. -/
theorem offset_uploaded_for_zero_offset_slice :
    okTraceHas (runProgram 2 fixB4 [fixX4] fixOut none)
      (fun c => c == GLCmd.uniform1i 7 (some 0)) = true := by decide

def fixTD4w : TextureData :=
  { texShape := [1, 2], isPacked := false,
    slice := some { flatOffset := 5 }, texture := 8 }

def fixX4w : TensorData :=
  { shape := [2], texData := some fixTD4w, isUniform := false, uniformValues := [] }

def fixB4w : GPGPUBinary :=
  { webGLProgram := 3, program := fixProg, uniformLocations := fixLoc4,
    source := "src", inShapeInfos := [fixS4], outShapeInfo := fixOutShapeInfo,
    infLoc := none, nanLoc := none }

theorem offset_upload_iff_slice_present_witness :
    offsetCmds fixB4w "A" fixTD4w = [GLCmd.uniform1i 7 (some 5)] ∧
    GLCmd.uniform1i 7 (some 5) ∈ runTrace 2 fixB4w [fixX4w] fixOut none :=
  (offset_upload_iff_slice_present 2 fixB4w [fixX4w] fixOut none
    (runTrace 2 fixB4w [fixX4w] fixOut none) 0 1 fixTD4w
    (by decide) (by decide) rfl rfl (by decide)).2.2
    { flatOffset := 5 } 7 rfl (by decide)

/-- C7 (amended): at compile time the `NAN` location is always queried
(`nanLoc` records the query result regardless of the version) while the
`INFINITY` location is queried only under WEBGL_VERSION 1 and remains
`none` otherwise; at execution time NaN is uploaded whenever its recorded
location resolved, and Infinity is uploaded only under version 1 and only
when its location resolved — in particular no Infinity upload occurs under
any other version, nor under version 1 with an unresolved Infinity location
(with no hook, whose commands are outside the executor's control). -/
theorem special_constant_uniforms :
    (∀ (version cph : Nat) (getLoc : String → Option Nat)
       (mkSh : List InputInfo → ShapeInfo → String → Bool → String × String)
       (p : GPGPUProgram) (ins : List TensorData) (outp : TensorData),
       (compileProgram version cph getLoc mkSh p ins outp).nanLoc = getLoc "NAN" ∧
       (version = 1 →
         (compileProgram version cph getLoc mkSh p ins outp).infLoc = getLoc "INFINITY") ∧
       (version ≠ 1 →
         (compileProgram version cph getLoc mkSh p ins outp).infLoc = none))
    ∧ (∀ (v : Nat) (b : GPGPUBinary) (ins : List TensorData) (outp : TensorData)
         (hook : Option (Nat → List GLCmd)) (t : List GLCmd) (l : Nat),
         runProgram v b ins outp hook = Except.ok t →
         (b.nanLoc = some l → GLCmd.uniform1f l FVal.nan ∈ t) ∧
         (v = 1 → b.infLoc = some l → GLCmd.uniform1f l FVal.infinity ∈ t))
    ∧ (∀ (v : Nat) (b : GPGPUBinary) (ins : List TensorData) (outp : TensorData)
         (t : List GLCmd) (l : Nat),
         runProgram v b ins outp none = Except.ok t →
         v ≠ 1 ∨ b.infLoc = none →
         GLCmd.uniform1f l FVal.infinity ∉ t) := by
  refine ⟨?_, ?_, ?_⟩
  · intro version cph getLoc mkSh p ins outp
    refine ⟨rfl, ?_, ?_⟩
    · intro h
      simp [compileProgram, h]
    · intro h
      simp [compileProgram, h]
  · intro v b ins outp hook t l hok
    have ht : t = runTrace v b ins outp hook := runProgram_ok_trace hok
    subst ht
    constructor
    · intro hnan
      exact mem_runTrace_of_mem_standardCmds (nan_mem_standardCmds hnan)
    · intro hv hinf
      exact mem_runTrace_of_mem_standardCmds (infinity_mem_standardCmds hv hinf)
  · intro v b ins outp t l hok hv hc
    have ht : t = runTrace v b ins outp none := runProgram_ok_trace hok
    subst ht
    unfold runTrace at hc
    simp only [List.mem_append] at hc
    rcases hc with (h | h) | h
    · rcases standardCmds_uniform1f_cases h with ⟨h1, h2, _⟩ | ⟨_, hf⟩ | ⟨x, hf⟩
      · rcases hv with hv | hv
        · exact hv h1
        · rw [hv] at h2
          exact Option.noConfusion h2
      · exact FVal.noConfusion hf
      · exact FVal.noConfusion hf
    · simp at h
    · simp at h

def fixGetLocNone : String → Option Nat := fun _ => none

def fixMkSh : List InputInfo → ShapeInfo → String → Bool → String × String :=
  fun _ _ _ _ => ("src", "key")

def fixB7 : GPGPUBinary :=
  compileProgram 2 3 fixGetLocNone fixMkSh fixProg [] fixOut

/-- C7 counterexample: a successful execution in which no NaN upload occurs
— the claim's "NaN is always uploaded" fails when the `NAN` location did not
resolve (here: a program compiled under version 2 where no uniform location
resolves, as with modern shaders that declare the constants inline). -/
theorem nan_not_uploaded_when_unresolved :
    isOkB (runProgram 2 fixB7 [] fixOut none) = true ∧
    okTraceHas (runProgram 2 fixB7 [] fixOut none) isNaNUpload = false :=
  ⟨by decide, by decide⟩

def fixGetLoc7 : String → Option Nat := fun s => if s = "NAN" then some 5 else none

def fixB7w : GPGPUBinary :=
  { webGLProgram := 3, program := fixProg, uniformLocations := fun _ => none,
    source := "src", inShapeInfos := [], outShapeInfo := fixOutShapeInfo,
    infLoc := none, nanLoc := some 5 }

theorem special_constant_uniforms_witness :
    (compileProgram 2 3 fixGetLoc7 fixMkSh fixProg [] fixOut).nanLoc =
      fixGetLoc7 "NAN" ∧
    GLCmd.uniform1f 5 FVal.nan ∈ runTrace 2 fixB7w [] fixOut none ∧
    GLCmd.uniform1f 9 FVal.infinity ∉ runTrace 2 fixB7w [] fixOut none ∧
    GLCmd.uniform1f 9 FVal.infinity ∉ runTrace 1 fixB7w [] fixOut none :=
  ⟨(special_constant_uniforms.1 2 3 fixGetLoc7 fixMkSh fixProg [] fixOut).1,
   (special_constant_uniforms.2.1 2 fixB7w [] fixOut none
      (runTrace 2 fixB7w [] fixOut none) 5 (by decide)).1 rfl,
   special_constant_uniforms.2.2 2 fixB7w [] fixOut
      (runTrace 2 fixB7w [] fixOut none) 9 (by decide) (Or.inl (by decide)),
   special_constant_uniforms.2.2 1 fixB7w [] fixOut
      (runTrace 1 fixB7w [] fixOut none) 9 (by decide) (Or.inr rfl)⟩

/-! ### Shader-key string machinery -/

theorem digitChar_range : ∀ d, d < 10 →
    48 ≤ (digitChar d).toNat ∧ (digitChar d).toNat ≤ 57 := by decide

theorem charVal_digitChar : ∀ d, d < 10 → charVal (digitChar d) = d := by decide

theorem natChars_ne_nil (n : Nat) : natChars n ≠ [] := by
  rw [natChars]
  split <;> simp

theorem natChars_digits (n : Nat) :
    ∀ c ∈ natChars n, 48 ≤ c.toNat ∧ c.toNat ≤ 57 := by
  induction n using Nat.strong_induction_on with
  | _ n ih =>
    rw [natChars]
    split
    next h =>
      intro c hc
      simp at hc
      subst hc
      exact digitChar_range n h
    next h =>
      intro c hc
      rcases List.mem_append.mp hc with h1 | h1
      · exact ih (n / 10) (Nat.div_lt_self (by omega) (by omega)) c h1
      · simp at h1
        subst h1
        exact digitChar_range (n % 10) (Nat.mod_lt _ (by omega))

theorem chainVal_append_singleton (xs : List Char) (c : Char) :
    chainVal (xs ++ [c]) = 10 * chainVal xs + charVal c := by
  unfold chainVal
  rw [List.foldl_append]
  rfl

theorem chainVal_natChars (n : Nat) : chainVal (natChars n) = n := by
  induction n using Nat.strong_induction_on with
  | _ n ih =>
    rw [natChars]
    split
    next h =>
      show chainVal [digitChar n] = n
      unfold chainVal
      simp [charVal_digitChar n h]
    next h =>
      rw [chainVal_append_singleton,
        ih (n / 10) (Nat.div_lt_self (by omega) (by omega)),
        charVal_digitChar (n % 10) (Nat.mod_lt _ (by omega))]
      omega

theorem natChars_inj {a b : Nat} (h : natChars a = natChars b) : a = b := by
  have hv := congrArg chainVal h
  rwa [chainVal_natChars, chainVal_natChars] at hv

theorem comma_not_mem_natChars (n : Nat) : ',' ∉ natChars n := by
  intro hc
  exact absurd (natChars_digits n ',' hc) (by decide)

theorem commaJoinChars_chars (l : List Nat) :
    ∀ c ∈ commaJoinChars l, (48 ≤ c.toNat ∧ c.toNat ≤ 57) ∨ c = ',' := by
  induction l with
  | nil => simp [commaJoinChars]
  | cons n rest ih =>
    cases rest with
    | nil =>
      intro c hc
      exact Or.inl (natChars_digits n c (by simpa [commaJoinChars] using hc))
    | cons m rest2 =>
      intro c hc
      simp only [commaJoinChars, List.mem_append, List.mem_cons] at hc
      rcases hc with h | h | h
      · exact Or.inl (natChars_digits n c h)
      · exact Or.inr h
      · exact ih c h

theorem append_cons_inj {c : Char} :
    ∀ {a b r s : List Char}, c ∉ a → c ∉ b → a ++ c :: r = b ++ c :: s →
      a = b ∧ r = s := by
  intro a
  induction a with
  | nil =>
    intro b r s _ hb h
    cases b with
    | nil => simpa using h
    | cons z zs =>
      simp only [List.nil_append, List.cons_append, List.cons.injEq] at h
      exact absurd (h.1 ▸ List.mem_cons_self z zs) hb
  | cons y ys ih =>
    intro b r s ha hb h
    cases b with
    | nil =>
      simp only [List.nil_append, List.cons_append, List.cons.injEq] at h
      exact absurd (h.1 ▸ List.mem_cons_self y ys) ha
    | cons z zs =>
      simp only [List.cons_append, List.cons.injEq] at h
      obtain ⟨hyz, h2⟩ := h
      obtain ⟨h3, h4⟩ := ih (fun hc => ha (List.mem_cons_of_mem _ hc))
        (fun hc => hb (List.mem_cons_of_mem _ hc)) h2
      exact ⟨by rw [hyz, h3], h4⟩

theorem commaJoinChars_inj : ∀ (a b : List Nat),
    commaJoinChars a = commaJoinChars b → a = b := by
  intro a
  induction a with
  | nil =>
    intro b h
    cases b with
    | nil => rfl
    | cons m bs =>
      exfalso
      cases bs with
      | nil => exact natChars_ne_nil m (by simpa [commaJoinChars] using h.symm)
      | cons m2 bs2 =>
        simp only [commaJoinChars] at h
        rw [eq_comm, List.append_eq_nil] at h
        simp at h
  | cons n as ih =>
    intro b h
    cases b with
    | nil =>
      exfalso
      cases as with
      | nil => exact natChars_ne_nil n (by simpa [commaJoinChars] using h)
      | cons n2 as2 =>
        simp only [commaJoinChars] at h
        rw [List.append_eq_nil] at h
        simp at h
    | cons m bs =>
      cases as with
      | nil =>
        cases bs with
        | nil =>
          simp only [commaJoinChars] at h
          rw [natChars_inj h]
        | cons m2 bs2 =>
          exfalso
          simp only [commaJoinChars] at h
          have hm : ',' ∈ natChars n := by
            rw [h]
            exact List.mem_append_right _ (List.mem_cons_self _ _)
          exact comma_not_mem_natChars n hm
      | cons n2 as2 =>
        cases bs with
        | nil =>
          exfalso
          simp only [commaJoinChars] at h
          have hm : ',' ∈ natChars m := by
            rw [← h]
            exact List.mem_append_right _ (List.mem_cons_self _ _)
          exact comma_not_mem_natChars m hm
        | cons m2 bs2 =>
          simp only [commaJoinChars] at h
          obtain ⟨h1, h2⟩ := append_cons_inj (comma_not_mem_natChars n)
            (comma_not_mem_natChars m) h
          rw [natChars_inj h1, ih (m2 :: bs2) h2]

theorem underscore_not_mem_commaJoin (l : List Nat) : '_' ∉ commaJoinChars l := by
  intro hc
  rcases commaJoinChars_chars l '_' hc with h | h
  · exact absurd h (by decide)
  · exact absurd h (by decide)

theorem underscore_not_mem_texKeyChars (x : TensorData) : '_' ∉ texKeyChars x := by
  unfold texKeyChars
  split
  · decide
  · exact underscore_not_mem_commaJoin _

theorem uniform_chars_ne_commaJoin (l : List Nat) : commaJoinChars l ≠ uniformChars := by
  intro h
  have hu : 'u' ∈ commaJoinChars l := by rw [h]; decide
  rcases commaJoinChars_chars l 'u' hu with hc | hc
  · exact absurd hc (by decide)
  · exact absurd hc (by decide)

theorem texKeyChars_inj {x y : TensorData} (h : texKeyChars x = texKeyChars y) :
    (if x.isUniform then none
     else some ((x.texData.getD defaultTextureData).texShape)) =
    (if y.isUniform then none
     else some ((y.texData.getD defaultTextureData).texShape)) := by
  unfold texKeyChars at h
  cases hx : x.isUniform <;> cases hy : y.isUniform <;> simp [hx, hy] at h ⊢
  · exact commaJoinChars_inj _ _ h
  · exact absurd h (uniform_chars_ne_commaJoin _)
  · exact absurd h.symm (uniform_chars_ne_commaJoin _)

theorem underscore_not_mem_boolChars (b : Bool) : '_' ∉ boolChars b := by
  cases b <;> decide

theorem blockChars_eq_of_keyFields {x y : TensorData} (h : keyFields x = keyFields y) :
    blockChars x = blockChars y := by
  unfold keyFields at h
  simp only [Prod.mk.injEq] at h
  have htex : texKeyChars x = texKeyChars y := by
    have h21 := h.2.1
    unfold texKeyChars
    cases hx : x.isUniform <;> cases hy : y.isUniform
    all_goals simp [hx, hy] at h21 ⊢
    all_goals try rw [h21]
  unfold blockChars
  rw [h.1, h.2.2, htex]

theorem blocks_join_inj : ∀ (xs ys : List TensorData), xs.length = ys.length →
    blocksJoin xs = blocksJoin ys → xs.map keyFields = ys.map keyFields := by
  intro xs
  induction xs with
  | nil =>
    intro ys hlen _
    cases ys with
    | nil => rfl
    | cons y ys => simp at hlen
  | cons x xs ih =>
    intro ys hlen h
    cases ys with
    | nil => simp at hlen
    | cons y ys =>
      simp only [blocksJoin, List.map_cons, List.flatten_cons] at h
      unfold blockChars at h
      simp only [List.append_assoc, List.cons_append] at h
      obtain ⟨hsh, h2⟩ := append_cons_inj (underscore_not_mem_commaJoin _)
        (underscore_not_mem_commaJoin _) h
      obtain ⟨htex, h3⟩ := append_cons_inj (underscore_not_mem_texKeyChars _)
        (underscore_not_mem_texKeyChars _) h2
      have hbool_tail : hasOffset x = hasOffset y ∧
          (xs.map blockChars).flatten = (ys.map blockChars).flatten := by
        cases hx : hasOffset x <;> cases hy : hasOffset y <;>
          simp [boolChars, hx, hy] at h3 <;> exact ⟨rfl, h3⟩
      have hkf : keyFields x = keyFields y := by
        unfold keyFields
        simp only [Prod.mk.injEq]
        exact ⟨commaJoinChars_inj _ _ hsh, texKeyChars_inj htex, hbool_tail.1⟩
      have hlen' : xs.length = ys.length := by simpa using hlen
      simp only [List.map_cons]
      rw [hkf, ih ys hlen' (by simpa [blocksJoin] using hbool_tail.2)]

theorem dataUnderscoreLit : ("_" : String).data = ['_'] := rfl

theorem dataEmptyLit : ("" : String).data = [] := rfl

theorem dataUniformLit : ("uniform" : String).data = uniformChars := rfl

theorem tensorKeyPart_data (x : TensorData) : (tensorKeyPart x).data = blockChars x := by
  unfold tensorKeyPart blockChars texKeyChars
  cases hu : x.isUniform <;>
    simp [String.data_append, listNatStr, boolStr, dataUnderscoreLit, dataUniformLit,
      uniformChars]

theorem foldl_keyParts_data (xs : List TensorData) :
    ∀ s : String, (xs.foldl (fun acc x => acc ++ tensorKeyPart x) s).data =
      s.data ++ blocksJoin xs := by
  induction xs with
  | nil => intro s; simp [blocksJoin]
  | cons x xs ih =>
    intro s
    simp only [List.foldl_cons]
    rw [ih]
    simp [String.data_append, tensorKeyPart_data, blocksJoin]

theorem blocksJoin_append_single (l : List TensorData) (x : TensorData) :
    blocksJoin (l ++ [x]) = blocksJoin l ++ blockChars x := by
  simp [blocksJoin]

theorem makeShaderKey_data (p : GPGPUProgram) (ins : List TensorData)
    (outp : TensorData) :
    (makeShaderKey p ins outp).data =
      p.constructorName.data ++
        '_' :: (blocksJoin (ins ++ [outp]) ++ '_' :: p.userCode.data) := by
  unfold makeShaderKey
  simp [String.data_append, foldl_keyParts_data, dataUnderscoreLit, dataEmptyLit,
    tensorKeyPart_data, blocksJoin_append_single, List.append_assoc]

theorem blocksJoin_eq_of_keyFields : ∀ (l₁ l₂ : List TensorData),
    l₁.map keyFields = l₂.map keyFields → blocksJoin l₁ = blocksJoin l₂ := by
  intro l₁
  induction l₁ with
  | nil =>
    intro l₂ h
    cases l₂ with
    | nil => rfl
    | cons y ys => simp at h
  | cons x xs ih =>
    intro l₂ h
    cases l₂ with
    | nil => simp at h
    | cons y ys =>
      simp only [List.map_cons, List.cons.injEq] at h
      simp only [blocksJoin, List.map_cons, List.flatten_cons]
      have hx := blockChars_eq_of_keyFields h.1
      have hxs := ih ys h.2
      simp only [blocksJoin] at hxs
      rw [hx, hxs]

/-- C2: `makeShaderKey` is a pure function of its arguments (it is a
function, and equal key-field lists force equal keys), and for a fixed
program and operand count the key determines — and is determined by — every
operand's and the output's logical shape, uniform-vs-texture storage mode,
physical texture shape (for texture-backed operands), and presence of a
nonzero slice offset (`keyFields`); so two calls differing in any of those
fields produce different keys. -/
theorem makeShaderKey_pure_and_separating
    (p : GPGPUProgram) (ins₁ ins₂ : List TensorData) (out₁ out₂ : TensorData)
    (hlen : ins₁.length = ins₂.length) :
    makeShaderKey p ins₁ out₁ = makeShaderKey p ins₂ out₂ ↔
      (ins₁ ++ [out₁]).map keyFields = (ins₂ ++ [out₂]).map keyFields := by
  constructor
  · intro h
    have hd := congrArg String.data h
    rw [makeShaderKey_data, makeShaderKey_data] at hd
    have h1 := List.append_cancel_left hd
    have h2 : blocksJoin (ins₁ ++ [out₁]) ++ '_' :: p.userCode.data =
        blocksJoin (ins₂ ++ [out₂]) ++ '_' :: p.userCode.data := by
      simpa using h1
    have h3 := List.append_cancel_right h2
    exact blocks_join_inj _ _ (by simp [hlen]) h3
  · intro h
    have hb := blocksJoin_eq_of_keyFields _ _ h
    apply String.ext
    rw [makeShaderKey_data, makeShaderKey_data, hb]

def fixKTD1 : TextureData :=
  { texShape := [1, 2], isPacked := false, slice := none, texture := 0 }

def fixKTD2 : TextureData :=
  { texShape := [2, 1], isPacked := false, slice := none, texture := 0 }

def fixKx1 : TensorData :=
  { shape := [2], texData := some fixKTD1, isUniform := false, uniformValues := [] }

def fixKx2 : TensorData :=
  { shape := [2], texData := some fixKTD2, isUniform := false, uniformValues := [] }

theorem makeShaderKey_pure_and_separating_witness :
    (makeShaderKey fixProg [fixKx1] fixOut = makeShaderKey fixProg [fixKx2] fixOut ↔
      ([fixKx1] ++ [fixOut]).map keyFields = ([fixKx2] ++ [fixOut]).map keyFields) ∧
    makeShaderKey fixProg [fixKx1] fixOut ≠ makeShaderKey fixProg [fixKx2] fixOut :=
  ⟨makeShaderKey_pure_and_separating fixProg [fixKx1] [fixKx2] fixOut fixOut rfl,
   fun h =>
     absurd ((makeShaderKey_pure_and_separating fixProg [fixKx1] [fixKx2]
       fixOut fixOut rfl).mp h) (by decide)⟩
